import Mathlib

/-!
# Verification of the conflicto activity framework

Shallow embedding of the activity-framework core of the conflicto backend:
the activity state machine (`app/services/activity_framework/state_machine.py`),
the service-level transition wrapper (`app/services/activity_service.py`), and
the three concrete activity kinds (`app/services/activity_types/polling.py`,
`qna.py`, `word_cloud.py`).

Conventions of the embedding:
* Python JSON-like values are modelled by `Conflicto.Json`; hashable scalars
  (the values Python allows as `dict` keys among those we model) by
  `Conflicto.Scalar`.  Scalar equality is Lean structural equality; the Python
  corner where `True == 1` merges dict keys is not modelled (no code path
  exercised here mixes booleans and integers as keys).
* Python exceptions are modelled by the `Except String` monad; a `.error`
  escaping a top-level function models an uncaught exception.
* Python `float` arithmetic (poll percentages, word-cloud sizes) is modelled
  with exact rationals; `round(x, 1)` is modelled as exact round-half-to-even
  on rationals, `int(x)` as truncation.
* `datetime.utcnow()` is threaded explicitly as an integer-valued clock
  parameter `now`; `timedelta(seconds=d)` is addition on that clock.
* Text operations are modelled on ASCII strings (Python's `\w`, `\s`, `lower`
  are Unicode-aware; all inputs considered here are ASCII).
-/

namespace Conflicto

/-- Hashable Python scalar values (usable as `dict`/`set` elements). -/
inductive Scalar where
  | null : Scalar
  | bool (b : Bool) : Scalar
  | int (n : Int) : Scalar
  | str (s : String) : Scalar
deriving DecidableEq, Repr

/-- JSON-like Python values: scalars, lists, and string-keyed dicts. -/
inductive Json where
  | scalar (v : Scalar) : Json
  | arr (xs : List Json) : Json
  | obj (kvs : List (String × Json)) : Json

/-- Shorthand for a JSON string. -/
def jstr (s : String) : Json := Json.scalar (Scalar.str s)

/-- Shorthand for a JSON integer. -/
def jint (n : Int) : Json := Json.scalar (Scalar.int n)

/-- Shorthand for a JSON boolean. -/
def jbool (b : Bool) : Json := Json.scalar (Scalar.bool b)

/-- Python-exception monad: `.error msg` models a raised exception. -/
abbrev PyM (α : Type) : Type := Except String α

/-- Python truthiness (`if x:`) for the modelled values. -/
def Json.truthy : Json → Bool
  | .scalar .null => false
  | .scalar (.bool b) => b
  | .scalar (.int n) => n != 0
  | .scalar (.str s) => s ≠ ""
  | .arr xs => !xs.isEmpty
  | .obj kvs => !kvs.isEmpty

/-- Python `d.get(k, default)`: raises `AttributeError` on a non-dict. -/
def Json.get (j : Json) (k : String) (dflt : Json) : PyM Json :=
  match j with
  | .obj kvs => .ok ((kvs.lookup k).getD dflt)
  | _ => .error "AttributeError: get on non-dict"

/-- Python `k in d` key-membership on a dict value. -/
def Json.hasKey (j : Json) (k : String) : Bool :=
  match j with
  | .obj kvs => (kvs.lookup k).isSome
  | _ => false

/-- Python iteration (`for x in v`): lists yield elements, strings yield
one-character strings, dicts yield their keys; other values raise. -/
def Json.pyIter : Json → PyM (List Json)
  | .arr xs => .ok xs
  | .scalar (.str s) => .ok (s.toList.map (fun c => jstr c.toString))
  | .obj kvs => .ok (kvs.map (fun kv => jstr kv.1))
  | _ => .error "TypeError: object is not iterable"

/-- Using a value as a `dict` key / `set` element: lists and dicts are
unhashable and raise. -/
def Json.asKey : Json → PyM Scalar
  | .scalar v => .ok v
  | _ => .error "TypeError: unhashable type"

/-- Python `j == "lit"` for a JSON value against a string literal. -/
def Json.eqStr (j : Json) (t : String) : Bool :=
  match j with
  | .scalar (.str s) => s = t
  | _ => false

/-- Python-dict assignment `d[k] = v`: updates an existing key in place
(keeping its insertion position) or appends a new key at the end. -/
def updInsert {α β : Type} [DecidableEq α] (d : List (α × β)) (k : α) (v : β) :
    List (α × β) :=
  match d with
  | [] => [(k, v)]
  | (k', v') :: rest => if k = k' then (k, v) :: rest else (k', v') :: updInsert rest k v

/-- First-occurrence de-duplication (auxiliary, with the set of already seen
elements as accumulator). -/
def dedupFirstAux {α : Type} [DecidableEq α] (seen : List α) : List α → List α
  | [] => []
  | a :: l => if a ∈ seen then dedupFirstAux seen l else a :: dedupFirstAux (a :: seen) l

/-- First-occurrence de-duplication; models `list(set(xs))` where only the
element set (and hence the length) is relied upon — CPython's set iteration
order is unspecified, first-occurrence order is chosen here. -/
def dedupFirst {α : Type} [DecidableEq α] (l : List α) : List α :=
  dedupFirstAux [] l

/-- Round-half-to-even to an integer, as Python's `round(x)` on exact values. -/
def pyRoundInt (q : ℚ) : ℤ :=
  let f : ℤ := ⌊q⌋
  let r : ℚ := q - f
  if r < 1/2 then f
  else if r > 1/2 then f + 1
  else if f % 2 = 0 then f else f + 1

/-- Python `round(x, 1)` modelled exactly on rationals. -/
def pyRound1 (q : ℚ) : ℚ := (pyRoundInt (q * 10) : ℚ) / 10

/-- `max(l)` with a default for the empty list (`max(xs) if xs else dflt`). -/
def listMaxD (l : List Int) (dflt : Int) : Int :=
  match l with
  | [] => dflt
  | v :: vs => vs.foldl max v

/-! ## Activity state machine (`app/services/activity_framework/state_machine.py`)

`ActivityState` is the `str`-valued enum from `app/db/enums.py`; activity
state is stored as a string on the model, so the machine's entry points take
raw strings and parse them (`ActivityState(s)` raising `ValueError` on an
unknown value is modelled by `activityStateOfString` returning `none`).

The SQLAlchemy `Activity` model is represented by the fields the state
machine reads or writes; `activity_metadata.get("duration_seconds")` is
modelled by the single consulted key `durationSeconds` (an integer when
present, as every value the repository stores there). -/

/-- The four lifecycle states (`ActivityState` in `app/db/enums.py`). -/
inductive ActivityState where
  | draft | published | active | expired
deriving DecidableEq, Repr

/-- The string value of a lifecycle state (the `str`-enum's value). -/
def ActivityState.toStr : ActivityState → String
  | .draft => "draft"
  | .published => "published"
  | .active => "active"
  | .expired => "expired"

/-- `ActivityState(s)`: parse a state string, `none` models `ValueError`. -/
def activityStateOfString (s : String) : Option ActivityState :=
  if s = "draft" then some .draft
  else if s = "published" then some .published
  else if s = "active" then some .active
  else if s = "expired" then some .expired
  else none

/-- The fixed transition table `ActivityStateMachine.TRANSITIONS`. -/
def transitionsTable : ActivityState → List ActivityState
  | .draft => [.published]
  | .published => [.active, .draft]
  | .active => [.expired]
  | .expired => []

/-- The fields of the `Activity` model that the state machine and the
service-level transition wrapper read or write. -/
structure Activity where
  id : Int
  state : String
  status : String
  durationSeconds : Option Int
  expiresAt : Option Int
  updatedAt : Int
deriving DecidableEq, Repr

namespace ActivityStateMachine

/-- `ActivityStateMachine.can_transition`. -/
def canTransition (currentState targetState : String) : Bool :=
  match activityStateOfString currentState, activityStateOfString targetState with
  | some c, some t => (transitionsTable c).contains t
  | _, _ => false

/-- `ActivityStateMachine.get_valid_transitions`. -/
def getValidTransitions (currentState : String) : List String :=
  match activityStateOfString currentState with
  | some c => (transitionsTable c).map ActivityState.toStr
  | none => []

/-- `ActivityStateMachine._handle_activation`: `if duration_seconds:` is a
truthiness test, so an absent key and a value of `0` both skip the
`expires_at` computation. -/
def handleActivation (a : Activity) (now : Int) : Activity :=
  match a.durationSeconds with
  | some d => if d ≠ 0 then { a with expiresAt := some (now + d) } else a
  | none => a

/-- `ActivityStateMachine._handle_expiration`: a datetime is always truthy,
so `if not activity.expires_at:` fires exactly when `expires_at` is `None`. -/
def handleExpiration (a : Activity) (now : Int) : Activity :=
  match a.expiresAt with
  | none => { a with expiresAt := some now }
  | some _ => a

/-- `ActivityStateMachine._handle_state_transition`. -/
def handleStateTransition (a : Activity) (newState : String) (now : Int) : Activity :=
  if newState = "active" then handleActivation a now
  else if newState = "expired" then handleExpiration a now
  else a

/-- `ActivityStateMachine.transition`: returns the success flag together with
the (possibly mutated) activity record.  On a rejected transition the record
is returned untouched — the Python code returns `False` before any mutation. -/
def transition (a : Activity) (targetState : String) (_reason : Option String)
    (force : Bool) (now : Int) : Bool × Activity :=
  if ¬ force ∧ ¬ canTransition a.state targetState then (false, a)
  else
    let a1 := { a with state := targetState, updatedAt := now }
    (true, handleStateTransition a1 targetState now)

/-- The literal reason string `check_expired_activities` passes to
`transition` for each automatically expired activity. -/
def checkExpiredReason : String := "Automatic expiration"

/-- The per-activity guard of `check_expired_activities`: state `ACTIVE`,
`expires_at` set (truthy) and `current_time >= expires_at`. -/
def dueForExpiry (now : Int) (a : Activity) : Bool :=
  a.state = "active" && (match a.expiresAt with
    | some e => now ≥ e
    | none => false)

/-- `ActivityStateMachine.check_expired_activities`: returns the in-place
updated activity list together with the list of activities that were
transitioned to `expired` (the Python code mutates the records and returns
the transitioned ones). -/
def checkExpiredActivities (activities : List Activity) (now : Int) :
    List Activity × List Activity :=
  match activities with
  | [] => ([], [])
  | a :: rest =>
    let tail := checkExpiredActivities rest now
    if dueForExpiry now a then
      let r := transition a "expired" (some checkExpiredReason) false now
      if r.1 then (r.2 :: tail.1, r.2 :: tail.2) else (r.2 :: tail.1, tail.2)
    else (a :: tail.1, tail.2)

end ActivityStateMachine

/-- `ActivityService.transition_activity_state` (`app/services/activity_service.py`),
restricted to its in-memory logic: the `ValueError` raised on a rejected
transition is modelled as an `Except.error` carrying the `valid_transitions`
list embedded in its message; on success the legacy `status` field is updated
for the `active` and `expired` targets. -/
def transitionActivityState (a : Activity) (targetState : String)
    (reason : Option String) (force : Bool) (now : Int) :
    Except (List String) Activity :=
  let r := ActivityStateMachine.transition a targetState reason force now
  if r.1 then
    if targetState = "active" then .ok { r.2 with status := "active" }
    else if targetState = "expired" then .ok { r.2 with status := "completed" }
    else .ok r.2
  else .error (ActivityStateMachine.getValidTransitions r.2.state)

/-! ## Poll kind (`app/services/activity_types/polling.py`)

The configuration is represented after the `config.get(key, default)`
accesses the code performs: a typed record with the schema's fields and the
code's defaults baked in.  Stored responses reaching `calculate_results` are
the wrapper dicts built in `ActivityService.get_activity_results`
(`{"response_data": ..., "created_at": ...}`), hence arbitrary `Json`. -/

/-- Poll configuration as consumed by `PollingActivity`. -/
structure PollConfig where
  question : String
  options : List String
  allowMultipleChoice : Bool
  showLiveResults : Bool
  anonymousVoting : Bool
deriving DecidableEq, Repr

namespace PollingActivity

/-- The `for option in selected_options: if option not in valid_options`
loop of `process_response`; Python list membership compares with `==`, so a
non-string selection never matches a string option. -/
def checkSelectedOptions (validOptions : List String) : List Json → PyM Unit
  | [] => .ok ()
  | o :: rest =>
    if validOptions.any (fun s => o.eqStr s) then checkSelectedOptions validOptions rest
    else .error "Invalid option selected"

/-- Body of `PollingActivity.process_response` (the `try` block). -/
def processResponseBody (cfg : PollConfig) (participantId : Int)
    (responseData : Json) (now : String) : PyM Json := do
  let selectedOptions ← responseData.get "selected_options" (Json.arr [])
  match selectedOptions with
  | .arr sel => do
    if cfg.options.isEmpty then
      throw "Activity configuration has no valid options"
    checkSelectedOptions cfg.options sel
    if ¬ cfg.allowMultipleChoice ∧ sel.length > 1 then
      throw "Multiple choices not allowed for this poll"
    if sel.length = 0 then
      throw "At least one option must be selected"
    let base : List (String × Json) :=
      [("type", jstr "poll_response"),
       ("participant_id", jint participantId),
       ("selected_options", Json.arr sel),
       ("timestamp", jstr now),
       ("anonymous", jbool cfg.anonymousVoting)]
    if ¬ cfg.anonymousVoting then
      return Json.obj (base ++ [("participant_info", Json.obj [("id", jint participantId)])])
    else
      return Json.obj base
  | _ => throw "Response must contain selected_options as a list"

/-- `PollingActivity.process_response`: the `except` clause re-raises any
failure as a `ValueError` with a wrapped message. -/
def processResponse (cfg : PollConfig) (participantId : Int)
    (responseData : Json) (now : String) : PyM Json :=
  match processResponseBody cfg participantId responseData now with
  | .ok r => .ok r
  | .error e => .error ("Failed to process polling response: " ++ e)

/-- Accumulator of the response loop in `calculate_results`. -/
structure PollAcc where
  voteCounts : List (String × Int)
  totalResponses : Int
  timestamps : List Json

/-- Count the votes of one iterated `selected_options` element list into the
vote-count dict: `if option in vote_counts: vote_counts[option] += 1`.
Dict membership hashes the candidate, so an unhashable selection raises. -/
def countOptions (voteCounts : List (String × Int)) : List Json → PyM (List (String × Int))
  | [] => .ok voteCounts
  | o :: rest => do
    let k ← o.asKey
    match k with
    | .str s =>
      match voteCounts.lookup s with
      | some c => countOptions (updInsert voteCounts s (c + 1)) rest
      | none => countOptions voteCounts rest
    | _ => countOptions voteCounts rest

/-- One iteration of the response loop of `PollingActivity.calculate_results`. -/
def calcStep (acc : PollAcc) (response : Json) : PyM PollAcc := do
  let responseData ← response.get "response_data" (Json.obj [])
  let selectedOptions ← responseData.get "selected_options" (Json.arr [])
  let sel ← selectedOptions.pyIter
  let vc ← countOptions acc.voteCounts sel
  let ts :=
    if responseData.hasKey "timestamp" then
      match responseData with
      | .obj kvs => acc.timestamps ++ [((kvs.lookup "timestamp").getD (Json.scalar .null))]
      | _ => acc.timestamps
    else acc.timestamps
  return { voteCounts := vc, totalResponses := acc.totalResponses + 1, timestamps := ts }

/-- The aggregate returned by `PollingActivity.calculate_results` on the
successful path (the `"poll_results"` document, typed fields). -/
structure PollResults where
  question : String
  options : List String
  voteCounts : List (String × Int)
  percentages : List (String × ℚ)
  totalResponses : Int
  mostPopular : List String
  allowMultipleChoice : Bool
  showLiveResults : Bool
  responseTimestamps : List Json

/-- Body of `PollingActivity.calculate_results` (the `try` block). -/
def calculateResultsBody (cfg : PollConfig) (responses : List Json) : PyM PollResults := do
  let voteCounts0 := cfg.options.foldl (fun d o => updInsert d o (0 : Int)) []
  let acc ← responses.foldlM calcStep ⟨voteCounts0, 0, []⟩
  let percentages : List (String × ℚ) :=
    if acc.totalResponses > 0 then
      acc.voteCounts.map (fun kv => (kv.1, pyRound1 ((kv.2 : ℚ) / (acc.totalResponses : ℚ) * 100)))
    else
      cfg.options.foldl (fun d o => updInsert d o (0 : ℚ)) []
  let maxVotes : Int := listMaxD (acc.voteCounts.map Prod.snd) 0
  let mostPopular := (acc.voteCounts.filter (fun kv => kv.2 = maxVotes)).map Prod.fst
  return { question := cfg.question, options := cfg.options,
           voteCounts := acc.voteCounts, percentages := percentages,
           totalResponses := acc.totalResponses, mostPopular := mostPopular,
           allowMultipleChoice := cfg.allowMultipleChoice,
           showLiveResults := cfg.showLiveResults,
           responseTimestamps := acc.timestamps }

/-- Outcome of `calculate_results`: either the results document or the
error document built in the `except` clause. -/
inductive PollOutcome where
  | results (r : PollResults)
  | errorDoc (msg : String) (totalResponses : Nat)

/-- Whether a poll outcome is the error document. -/
def PollOutcome.isErrorDoc : PollOutcome → Bool
  | .results _ => false
  | .errorDoc _ _ => true

/-- `PollingActivity.calculate_results`: any exception from the body is
caught and turned into an error document carrying `len(responses)`. -/
def calculateResults (cfg : PollConfig) (responses : List Json) : PyM PollOutcome :=
  match calculateResultsBody cfg responses with
  | .ok r => .ok (.results r)
  | .error e => .ok (.errorDoc ("Failed to calculate results: " ++ e) responses.length)

end PollingActivity

/-! ## QnA kind (`app/services/activity_types/qna.py`)

Only `calculate_results` is needed by the claims.  The `questions` dict is
keyed by the (hashable) `question_id` value; `votes` maps a question id to
the list of `{"participant_id", "timestamp"}` entries appended for it. -/

/-- QnA configuration as consumed by `QnaActivity`. -/
structure QnaConfig where
  topic : String
  allowAnonymous : Bool
  enableVoting : Bool
  moderateQuestions : Bool
  maxQuestionLength : Int
  allowMultipleVotes : Bool
  showVoteCounts : Bool
deriving DecidableEq, Repr

namespace QnaActivity

/-- One entry appended to `votes[question_id]`. -/
structure VoteEntry where
  participantId : Json
  timestamp : Json

/-- One entry of the `questions` dict (also the question view returned in
the results document). -/
structure QEntry where
  id : Json
  text : Json
  anonymous : Json
  participantId : Json
  timestamp : Json
  status : Json
  voteCount : Int
  voters : List Json

/-- Accumulated `questions` and `votes` state of the replay loop. -/
structure QnaAcc where
  questions : List (Scalar × QEntry)
  votes : List (Scalar × List VoteEntry)

/-- Append a vote entry to `votes[qid]` (`if question_id not in votes:
votes[question_id] = []` followed by `append`). -/
def addVote (votes : List (Scalar × List VoteEntry)) (qid : Scalar) (v : VoteEntry) :
    List (Scalar × List VoteEntry) :=
  match votes.lookup qid with
  | some vl => updInsert votes qid (vl ++ [v])
  | none => votes ++ [(qid, [v])]

/-- One iteration of the replay loop of `QnaActivity.calculate_results`:
dispatch on `response_data.get("type")` and record a question or a vote. -/
def collectStep (acc : QnaAcc) (response : Json) : PyM QnaAcc := do
  let responseData ← response.get "response_data" (Json.obj [])
  let responseType ← responseData.get "type" (Json.scalar .null)
  if responseType.eqStr "question" then do
    let questionId ← responseData.get "question_id" (Json.scalar .null)
    if questionId.truthy then do
      let key ← questionId.asKey
      let text ← responseData.get "question_text" (jstr "")
      let anon ← responseData.get "anonymous" (jbool true)
      let pid ← responseData.get "participant_id" (Json.scalar .null)
      let ts ← responseData.get "timestamp" (Json.scalar .null)
      let status ← responseData.get "status" (jstr "approved")
      let entry : QEntry :=
        { id := questionId, text := text, anonymous := anon, participantId := pid,
          timestamp := ts, status := status, voteCount := 0, voters := [] }
      return { acc with questions := updInsert acc.questions key entry }
    else
      return acc
  else if responseType.eqStr "vote" then do
    let questionId ← responseData.get "question_id" (Json.scalar .null)
    let participantId ← responseData.get "participant_id" (Json.scalar .null)
    if questionId.truthy ∧ participantId.truthy then do
      let key ← questionId.asKey
      let ts ← responseData.get "timestamp" (Json.scalar .null)
      return { acc with votes := addVote acc.votes key ⟨participantId, ts⟩ }
    else
      return acc
  else
    return acc

/-- The replay loop over all responses. -/
def collect (responses : List Json) : PyM QnaAcc :=
  responses.foldlM collectStep ⟨[], []⟩

/-- Update one question entry from its vote list: all votes when multiple
votes are allowed, unique voters otherwise (`list(set(...))`, which hashes
every recorded `participant_id` and is modelled with first-occurrence
de-duplication, the iteration order of a CPython set being unspecified). -/
def tallyEntry (allowMultipleVotes : Bool) (e : QEntry) (vl : List VoteEntry) :
    PyM QEntry :=
  if allowMultipleVotes then
    .ok { e with voteCount := vl.length, voters := vl.map VoteEntry.participantId }
  else do
    let keys ← vl.mapM (fun v => v.participantId.asKey)
    let uniq := dedupFirst keys
    .ok { e with voteCount := uniq.length, voters := uniq.map Json.scalar }

/-- The `for question_id, question_votes in votes.items()` loop applying the
vote tallies to the `questions` dict. -/
def applyVotes (allowMultipleVotes : Bool) (questions : List (Scalar × QEntry)) :
    List (Scalar × List VoteEntry) → PyM (List (Scalar × QEntry))
  | [] => .ok questions
  | (qid, vl) :: rest => do
    match questions.lookup qid with
    | some e => do
      let e' ← tallyEntry allowMultipleVotes e vl
      applyVotes allowMultipleVotes (updInsert questions qid e') rest
    | none => applyVotes allowMultipleVotes questions rest

/-- The `questions` dict after the replay and vote-application phases of
`QnaActivity.calculate_results`. -/
def questionsWithVotes (cfg : QnaConfig) (responses : List Json) :
    PyM (List (Scalar × QEntry)) := do
  let acc ← collect responses
  applyVotes cfg.allowMultipleVotes acc.questions acc.votes

/-- Stable insertion for the descending-by-`vote_count` sort: the new entry
goes after every already placed entry with an equal or larger count, which is
`sorted(..., reverse=True)`'s stable behaviour. -/
def insertByVotesDesc (q : QEntry) : List QEntry → List QEntry
  | [] => [q]
  | x :: xs => if x.voteCount ≥ q.voteCount then x :: insertByVotesDesc q xs else q :: x :: xs

/-- `sorted(questions.values(), key=lambda q: q["vote_count"], reverse=True)`. -/
def sortByVotesDesc (qs : List QEntry) : List QEntry :=
  qs.foldl (fun acc q => insertByVotesDesc q acc) []

/-- The aggregate returned by `QnaActivity.calculate_results` on the
successful path (the `"qna_results"` document, typed fields). -/
structure QnaResults where
  topic : String
  totalQuestions : Int
  totalVotes : Int
  approvedQuestions : List QEntry
  pendingQuestions : List QEntry
  mostPopularQuestion : Option QEntry
  enableVoting : Bool
  showVoteCounts : Bool
  allowAnonymous : Bool

/-- Body of `QnaActivity.calculate_results` (the `try` block). -/
def calculateResultsBody (cfg : QnaConfig) (responses : List Json) : PyM QnaResults := do
  let acc ← collect responses
  let questions ← applyVotes cfg.allowMultipleVotes acc.questions acc.votes
  let sortedQuestions := sortByVotesDesc (questions.map Prod.snd)
  let approved := sortedQuestions.filter (fun q => q.status.eqStr "approved")
  let pending := sortedQuestions.filter (fun q => q.status.eqStr "pending")
  return { topic := cfg.topic,
           totalQuestions := questions.length,
           totalVotes := (acc.votes.map (fun kv => (kv.2.length : Int))).sum,
           approvedQuestions := approved,
           pendingQuestions := if ¬ cfg.moderateQuestions then pending else [],
           mostPopularQuestion := approved.head?,
           enableVoting := cfg.enableVoting,
           showVoteCounts := cfg.showVoteCounts,
           allowAnonymous := cfg.allowAnonymous }

/-- Outcome of `calculate_results`: results document or error document. -/
inductive QnaOutcome where
  | results (r : QnaResults)
  | errorDoc (msg : String) (totalResponses : Nat)

/-- `QnaActivity.calculate_results` with its catch-all `except` clause. -/
def calculateResults (cfg : QnaConfig) (responses : List Json) : PyM QnaOutcome :=
  match calculateResultsBody cfg responses with
  | .ok r => .ok (.results r)
  | .error e => .ok (.errorDoc ("Failed to calculate results: " ++ e) responses.length)

end QnaActivity

/-! ## WordCloud kind (`app/services/activity_types/word_cloud.py`)

The word pipeline of `_process_word` is `strip` → optional `lower` →
`re.sub(r"\s+", " ")` → `re.sub(r"[^\w\s-]", "")`, followed by the emptiness,
length, phrase and banned-list checks.  `\w`/`\s` are modelled over ASCII. -/

/-- WordCloud configuration as consumed by `WordCloudActivity`. -/
structure WordCloudConfig where
  prompt : String
  maxWordLength : Int
  maxWordsPerSubmission : Int
  allowPhrases : Bool
  moderateSubmissions : Bool
  caseSensitive : Bool
  showLiveResults : Bool
  bannedWords : List String
deriving DecidableEq, Repr

namespace WordCloudActivity

/-- Python `str.lower()` on the ASCII range. -/
def pyLowerChar (c : Char) : Char :=
  if 'A' ≤ c ∧ c ≤ 'Z' then Char.ofNat (c.toNat + 32) else c

/-- Python `str.lower()` (ASCII). -/
def pyLower (s : String) : String := (s.toList.map pyLowerChar).asString

/-- Python's `\s` class (ASCII part): the characters `str.strip` and the
whitespace regexes treat as whitespace. -/
def pyIsSpace (c : Char) : Bool :=
  c = ' ' || c = '\t' || c = '\n' || c = '\r' || c = '\x0b' || c = '\x0c'

/-- Python `str.strip()` (ASCII whitespace). -/
def pyStrip (s : String) : String :=
  (((s.toList.dropWhile pyIsSpace).reverse.dropWhile pyIsSpace).reverse).asString

/-- `re.sub(r"\s+", " ", s)` on the character list: every maximal whitespace
run becomes a single space. -/
def squeezeSpaces : List Char → List Char
  | [] => []
  | [c] => [if pyIsSpace c then ' ' else c]
  | c1 :: c2 :: cs =>
    if pyIsSpace c1 && pyIsSpace c2 then squeezeSpaces (c2 :: cs)
    else (if pyIsSpace c1 then ' ' else c1) :: squeezeSpaces (c2 :: cs)

/-- Python's `\w` class (ASCII part): letters, digits and underscore. -/
def pyIsWordChar (c : Char) : Bool :=
  c.isAlpha || c.isDigit || c = '_'

/-- `re.sub(r"[^\w\s-]", "", s)`: keep word characters, whitespace, hyphens. -/
def stripSpecial (cs : List Char) : List Char :=
  cs.filter (fun c => pyIsWordChar c || pyIsSpace c || c = '-')

/-- The normalization part of `_process_word`: strip, optional lowercasing,
whitespace collapse, special-character strip. -/
def normalizeWord (cfg : WordCloudConfig) (s : String) : String :=
  let c1 := pyStrip s
  let c2 := if cfg.caseSensitive then c1 else pyLower c1
  (stripSpecial (squeezeSpaces c2.toList)).asString

/-- `WordCloudActivity._process_word` on an arbitrary JSON word value. -/
def processWord (cfg : WordCloudConfig) (word : Json) : PyM String := do
  match word with
  | .scalar (.str s) =>
    let cleaned := normalizeWord cfg s
    if cleaned = "" then
      throw "word becomes empty after cleaning"
    if (cleaned.length : Int) > cfg.maxWordLength then
      throw "word exceeds maximum length"
    if ¬ cfg.allowPhrases ∧ cleaned.contains ' ' then
      throw "Phrases not allowed"
    if pyLower cleaned ∈ cfg.bannedWords.map pyLower then
      throw "word is not allowed"
    return cleaned
  | _ => throw "Each word must be a string"

/-- Body of `WordCloudActivity.process_response` (the `try` block). -/
def processResponseBody (cfg : WordCloudConfig) (participantId : Int)
    (responseData : Json) (now : String) : PyM Json := do
  let words ← responseData.get "words" (Json.arr [])
  match words with
  | .arr ws => do
    if ws.length = 0 then
      throw "At least one word must be submitted"
    if (ws.length : Int) > cfg.maxWordsPerSubmission then
      throw "Maximum words per submission exceeded"
    let results ← ws.mapM (processWord cfg)
    let processedWords := results.filter (fun w => w ≠ "")
    if processedWords.isEmpty then
      throw "No valid words found after processing"
    return Json.obj
      [("type", jstr "word_submission"),
       ("participant_id", jint participantId),
       ("words", Json.arr (processedWords.map jstr)),
       ("timestamp", jstr now),
       ("status", jstr (if cfg.moderateSubmissions then "pending" else "approved"))]
  | _ => throw "Response must contain words as a list"

/-- `WordCloudActivity.process_response` with its re-raising `except` clause. -/
def processResponse (cfg : WordCloudConfig) (participantId : Int)
    (responseData : Json) (now : String) : PyM Json :=
  match processResponseBody cfg participantId responseData now with
  | .ok r => .ok r
  | .error e => .error ("Failed to process Word Cloud response: " ++ e)

/-- Accumulator of the response loop in `calculate_results`. -/
structure WcAcc where
  allWords : List Json
  wordFreq : List (Scalar × Int)
  participantCount : Int
  timestamps : List Json

/-- `word_frequencies[word] += 1` over the iterated words (`Counter` keys
must be hashable). -/
def countWords (freq : List (Scalar × Int)) : List Json → PyM (List (Scalar × Int))
  | [] => .ok freq
  | w :: rest => do
    let k ← w.asKey
    countWords (updInsert freq k (((freq.lookup k).getD 0) + 1)) rest

/-- One iteration of the response loop of `WordCloudActivity.calculate_results`. -/
def calcStep (acc : WcAcc) (response : Json) : PyM WcAcc := do
  let responseData ← response.get "response_data" (Json.obj [])
  let ty ← responseData.get "type" (Json.scalar .null)
  if ty.eqStr "word_submission" then do
    let status ← responseData.get "status" (jstr "approved")
    if status.eqStr "approved" then do
      let words ← responseData.get "words" (Json.arr [])
      let ws ← words.pyIter
      let freq ← countWords acc.wordFreq ws
      let ts :=
        if responseData.hasKey "timestamp" then
          match responseData with
          | .obj kvs => acc.timestamps ++ [((kvs.lookup "timestamp").getD (Json.scalar .null))]
          | _ => acc.timestamps
        else acc.timestamps
      return { allWords := acc.allWords ++ ws, wordFreq := freq,
               participantCount := acc.participantCount + 1, timestamps := ts }
    else
      return acc
  else
    return acc

/-- Stable insertion for `Counter.most_common`'s descending sort. -/
def insertByCountDesc (p : Scalar × Int) : List (Scalar × Int) → List (Scalar × Int)
  | [] => [p]
  | x :: xs => if x.2 ≥ p.2 then x :: insertByCountDesc p xs else p :: x :: xs

/-- `Counter.most_common(n)`: counts sorted descending (stable), first `n`. -/
def mostCommon (freq : List (Scalar × Int)) (n : Nat) : List (Scalar × Int) :=
  (freq.foldl (fun acc p => insertByCountDesc p acc) []).take n

/-- One `word_cloud_data` entry. -/
structure WordCloudDatum where
  word : Scalar
  frequency : Int
  size : Int
  percentage : ℚ

/-- The aggregate returned by `WordCloudActivity.calculate_results` on the
successful path (the `"word_cloud_results"` document, typed fields). -/
structure WcResults where
  prompt : String
  wordCloudData : List WordCloudDatum
  wordFrequencies : List (Scalar × Int)
  mostCommonWords : List (Scalar × Int)
  uniqueWordCount : Int
  totalWordSubmissions : Int
  participantCount : Int
  showLiveResults : Bool
  allowPhrases : Bool
  submissionTimestamps : List Json

/-- Body of `WordCloudActivity.calculate_results` (the `try` block). -/
def calculateResultsBody (cfg : WordCloudConfig) (responses : List Json) :
    PyM WcResults := do
  let acc ← responses.foldlM calcStep ⟨[], [], 0, []⟩
  let common := mostCommon acc.wordFreq 50
  let maxFrequency : Int :=
    if acc.wordFreq.isEmpty then 1
    else listMaxD (acc.wordFreq.map Prod.snd) 1
  let data := common.map (fun p =>
    { word := p.1, frequency := p.2,
      size := min 100 (max 10 ⌊(p.2 : ℚ) / (maxFrequency : ℚ) * 100⌋),
      percentage :=
        if ¬ acc.allWords.isEmpty then
          pyRound1 ((p.2 : ℚ) / (acc.allWords.length : ℚ) * 100)
        else 0 : WordCloudDatum })
  return { prompt := cfg.prompt,
           wordCloudData := data,
           wordFrequencies := acc.wordFreq,
           mostCommonWords := common.take 10,
           uniqueWordCount := (acc.wordFreq.length : Int),
           totalWordSubmissions := (acc.allWords.length : Int),
           participantCount := acc.participantCount,
           showLiveResults := cfg.showLiveResults,
           allowPhrases := cfg.allowPhrases,
           submissionTimestamps := acc.timestamps }

/-- Outcome of `calculate_results`: results document or error document. -/
inductive WcOutcome where
  | results (r : WcResults)
  | errorDoc (msg : String) (totalResponses : Nat)

/-- `WordCloudActivity.calculate_results` with its catch-all `except` clause. -/
def calculateResults (cfg : WordCloudConfig) (responses : List Json) : PyM WcOutcome :=
  match calculateResultsBody cfg responses with
  | .ok r => .ok (.results r)
  | .error e => .ok (.errorDoc ("Failed to calculate results: " ++ e) responses.length)

end WordCloudActivity

/-! ## General lemmas about the dict model -/

theorem lookup_cons_ne {α β : Type} [DecidableEq α] (d : List (α × β)) (khead ksearch : α)
    (v : β) (h : ksearch ≠ khead) :
    (((khead, v)) :: d).lookup ksearch = d.lookup ksearch := by
  rw [List.lookup_cons]
  rw [beq_eq_false_iff_ne.mpr h]

theorem mem_values_updInsert {α β : Type} [DecidableEq α] (d : List (α × β)) (k : α) (v0 : β)
    (h : ∀ kv ∈ d, kv.2 = v0) : ∀ kv ∈ updInsert d k v0, kv.2 = v0 := by
  induction d with
  | nil =>
    intro kv hkv
    simp only [updInsert, List.mem_singleton] at hkv
    rw [hkv]
  | cons kv0 rest ih =>
    obtain ⟨k0, w0⟩ := kv0
    intro kv hkv
    by_cases hk : k = k0
    · subst hk
      rw [show updInsert ((k, w0) :: rest) k v0 = (k, v0) :: rest from by simp [updInsert]] at hkv
      rcases List.mem_cons.mp hkv with rfl | hkv
      · rfl
      · exact h kv (List.mem_cons_of_mem _ hkv)
    · rw [show updInsert ((k0, w0) :: rest) k v0 = (k0, w0) :: updInsert rest k v0 from by
          simp [updInsert, hk]] at hkv
      rcases List.mem_cons.mp hkv with rfl | hkv
      · exact h (k0, w0) (List.mem_cons_self _ _)
      · exact ih (fun kv' h' => h kv' (List.mem_cons_of_mem _ h')) kv hkv

theorem updInsert_map_fst_of_lookup_some {α β : Type} [DecidableEq α]
    (d : List (α × β)) (k : α) (v : β) (h : (d.lookup k).isSome) :
    (updInsert d k v).map Prod.fst = d.map Prod.fst := by
  induction d with
  | nil => simp at h
  | cons kv rest ih =>
    obtain ⟨k0, v0⟩ := kv
    by_cases hk : k = k0
    · subst hk; simp [updInsert]
    · rw [lookup_cons_ne rest k0 k v0 hk] at h
      simp [updInsert, hk, ih h]

theorem updInsert_map_fst_of_lookup_none {α β : Type} [DecidableEq α]
    (d : List (α × β)) (k : α) (v : β) (h : d.lookup k = none) :
    (updInsert d k v).map Prod.fst = d.map Prod.fst ++ [k] := by
  induction d with
  | nil => simp [updInsert]
  | cons kv rest ih =>
    obtain ⟨k0, v0⟩ := kv
    by_cases hk : k = k0
    · subst hk; simp at h
    · rw [lookup_cons_ne rest k0 k v0 hk] at h
      simp [updInsert, hk, ih h]

theorem lookup_updInsert_self {α β : Type} [DecidableEq α]
    (d : List (α × β)) (k : α) (v : β) :
    (updInsert d k v).lookup k = some v := by
  induction d with
  | nil => simp [updInsert]
  | cons kv rest ih =>
    obtain ⟨k0, v0⟩ := kv
    by_cases hk : k = k0
    · subst hk; simp [updInsert]
    · simp only [updInsert, if_neg hk]
      rw [lookup_cons_ne (updInsert rest k v) k0 k v0 hk]
      exact ih

theorem lookup_updInsert_ne {α β : Type} [DecidableEq α]
    (d : List (α × β)) (k k' : α) (v : β) (h : k' ≠ k) :
    (updInsert d k v).lookup k' = d.lookup k' := by
  induction d with
  | nil =>
    simp only [updInsert]
    rw [lookup_cons_ne ([] : List (α × β)) k k' v h]
  | cons kv rest ih =>
    obtain ⟨k0, v0⟩ := kv
    by_cases hk : k = k0
    · subst hk
      rw [show updInsert ((k, v0) :: rest) k v = (k, v) :: rest from by simp [updInsert]]
      rw [lookup_cons_ne rest k k' v h, lookup_cons_ne rest k k' v0 h]
    · simp only [updInsert, if_neg hk]
      by_cases hk' : k' = k0
      · subst hk'; simp
      · rw [lookup_cons_ne (updInsert rest k v) k0 k' v0 hk',
            lookup_cons_ne rest k0 k' v0 hk']
        exact ih

theorem updInsert_sum_incr (d : List (String × Int)) (k : String) (c : Int)
    (h : d.lookup k = some c) :
    ((updInsert d k (c + 1)).map Prod.snd).sum = (d.map Prod.snd).sum + 1 := by
  induction d with
  | nil => simp at h
  | cons kv rest ih =>
    obtain ⟨k0, v0⟩ := kv
    by_cases hk : k = k0
    · subst hk
      rw [List.lookup_cons_self] at h
      obtain rfl : v0 = c := by injection h
      simp [updInsert]
      ring
    · rw [lookup_cons_ne rest k0 k v0 hk] at h
      simp [updInsert, hk, ih h]
      ring

theorem mem_values_constFold {β : Type} (opts : List String) (v0 : β)
    (d : List (String × β)) (h : ∀ kv ∈ d, kv.2 = v0) :
    ∀ kv ∈ opts.foldl (fun acc o => updInsert acc o v0) d, kv.2 = v0 := by
  induction opts generalizing d with
  | nil => simpa using h
  | cons o opts ih =>
    simp only [List.foldl_cons]
    exact ih (updInsert d o v0) (mem_values_updInsert d o v0 h)

theorem lookup_constFold {β : Type} (opts : List String) (v0 : β)
    (d : List (String × β)) (s : String)
    (h : s ∈ opts ∨ d.lookup s = some v0) :
    (opts.foldl (fun acc o => updInsert acc o v0) d).lookup s = some v0 := by
  induction opts generalizing d with
  | nil =>
    rcases h with h | h
    · simp at h
    · simpa using h
  | cons o opts ih =>
    simp only [List.foldl_cons]
    by_cases ho : s ∈ opts
    · exact ih _ (Or.inl ho)
    · refine ih _ (Or.inr ?_)
      rcases h with h | h
      · simp only [List.mem_cons] at h
        rcases h with h | h
        · subst h; exact lookup_updInsert_self d s v0
        · exact absurd h ho
      · by_cases hs : s = o
        · subst hs; exact lookup_updInsert_self d s v0
        · rw [lookup_updInsert_ne d o s v0 hs]; exact h

theorem dedupFirstAux_congr {α : Type} [DecidableEq α] (l : List α)
    (s1 s2 : List α) (h : ∀ a, a ∈ s1 ↔ a ∈ s2) :
    dedupFirstAux s1 l = dedupFirstAux s2 l := by
  induction l generalizing s1 s2 with
  | nil => rfl
  | cons a l ih =>
    by_cases ha : a ∈ s1
    · simp [dedupFirstAux, ha, (h a).mp ha, ih s1 s2 h]
    · have ha2 : a ∉ s2 := fun hc => ha ((h a).mpr hc)
      simp only [dedupFirstAux, if_neg ha, if_neg ha2]
      rw [ih (a :: s1) (a :: s2) (fun b => by simp [h b])]

theorem lookup_isSome_iff_mem_fst {β : Type} (d : List (String × β)) (k : String) :
    (d.lookup k).isSome ↔ k ∈ d.map Prod.fst := by
  rw [List.lookup_isSome_iff]
  constructor
  · rintro ⟨p, hp, he⟩
    exact List.mem_map.mpr ⟨p, hp, (beq_iff_eq.mp he).symm⟩
  · intro h
    rcases List.mem_map.mp h with ⟨p, hp, he⟩
    exact ⟨p, hp, beq_iff_eq.mpr he.symm⟩

theorem map_fst_constFold {β : Type} (opts : List String) (v0 : β)
    (d : List (String × β)) :
    (opts.foldl (fun acc o => updInsert acc o v0) d).map Prod.fst
      = d.map Prod.fst ++ dedupFirstAux (d.map Prod.fst) opts := by
  induction opts generalizing d with
  | nil => simp [dedupFirstAux]
  | cons o opts ih =>
    simp only [List.foldl_cons]
    by_cases ho : (d.lookup o).isSome
    · have hmem : o ∈ d.map Prod.fst := (lookup_isSome_iff_mem_fst d o).mp ho
      rw [ih, updInsert_map_fst_of_lookup_some d o v0 ho]
      simp [dedupFirstAux, hmem]
    · have hnone : d.lookup o = none := by
        cases hl : d.lookup o with
        | none => rfl
        | some v => rw [hl] at ho; simp at ho
      have hnmem : o ∉ d.map Prod.fst := by
        intro hc
        rw [← lookup_isSome_iff_mem_fst d o] at hc
        exact ho hc
      rw [ih, updInsert_map_fst_of_lookup_none d o v0 hnone]
      have hcongr : dedupFirstAux (d.map Prod.fst ++ [o]) opts
          = dedupFirstAux (o :: d.map Prod.fst) opts := by
        refine dedupFirstAux_congr opts _ _ (fun a => ?_)
        simp [List.mem_append, or_comm]
      rw [hcongr]
      simp [dedupFirstAux, hnmem, List.append_assoc]

/-! ## State-machine lemmas and claims -/

theorem state_handleActivation (a : Activity) (now : Int) :
    (ActivityStateMachine.handleActivation a now).state = a.state := by
  unfold ActivityStateMachine.handleActivation
  cases a.durationSeconds with
  | none => rfl
  | some d => by_cases hd : d ≠ 0 <;> simp [hd]

theorem state_handleExpiration (a : Activity) (now : Int) :
    (ActivityStateMachine.handleExpiration a now).state = a.state := by
  unfold ActivityStateMachine.handleExpiration
  cases a.expiresAt <;> rfl

theorem state_handleStateTransition (a : Activity) (s : String) (now : Int) :
    (ActivityStateMachine.handleStateTransition a s now).state = a.state := by
  unfold ActivityStateMachine.handleStateTransition
  by_cases h1 : s = "active"
  · simp [h1, state_handleActivation]
  · by_cases h2 : s = "expired" <;> simp [h1, h2, state_handleExpiration]

theorem updatedAt_handleStateTransition (a : Activity) (s : String) (now : Int) :
    (ActivityStateMachine.handleStateTransition a s now).updatedAt = a.updatedAt := by
  unfold ActivityStateMachine.handleStateTransition
    ActivityStateMachine.handleActivation ActivityStateMachine.handleExpiration
  by_cases h1 : s = "active"
  · simp only [h1, if_pos rfl]
    cases a.durationSeconds with
    | none => rfl
    | some d => by_cases hd : d ≠ 0 <;> simp [hd]
  · by_cases h2 : s = "expired"
    · simp only [h1, h2, if_neg, if_pos rfl, ite_false]
      cases a.expiresAt <;> rfl
    · simp [h1, h2]

theorem transition_force_true (a : Activity) (t : String) (r : Option String) (now : Int) :
    (ActivityStateMachine.transition a t r true now).1 = true ∧
    (ActivityStateMachine.transition a t r true now).2.state = t := by
  unfold ActivityStateMachine.transition
  simp [state_handleStateTransition]

/-- The transition pairs named valid by the specification:
`DRAFT→PUBLISHED`, `PUBLISHED→ACTIVE`, `PUBLISHED→DRAFT`, `ACTIVE→EXPIRED`. -/
def specValidPairs : List (ActivityState × ActivityState) :=
  [(.draft, .published), (.published, .active), (.published, .draft), (.active, .expired)]

/-- C1: for every pair of lifecycle-state strings, `can_transition` returns
true exactly when the pair is in the fixed table {draft→published,
published→active, published→draft, active→expired}; the expired state has no
valid outgoing targets; and `transition` with `force=true` always succeeds
and writes the target state into the activity, for every pair of states. -/
theorem claim_C1_state_machine_table :
    (∀ s t : ActivityState,
       ActivityStateMachine.canTransition s.toStr t.toStr = true ↔ (s, t) ∈ specValidPairs) ∧
    (∀ t : ActivityState,
       ActivityStateMachine.canTransition ActivityState.expired.toStr t.toStr = false) ∧
    (∀ (a : Activity) (s t : ActivityState) (r : Option String) (now : Int),
       a.state = s.toStr →
       (ActivityStateMachine.transition a t.toStr r true now).1 = true ∧
       (ActivityStateMachine.transition a t.toStr r true now).2.state = t.toStr) := by
  refine ⟨?_, ?_, ?_⟩
  · intro s t
    cases s <;> cases t <;> decide
  · intro t
    cases t <;> decide
  · intro a s t r now _
    exact transition_force_true a t.toStr r now

/-- C8: transitioning a `draft` activity directly to `active` without force
fails: the service-level wrapper raises carrying
`valid_transitions=["published"]`, and the rejected state-machine transition
returns the activity record unchanged (state and `updated_at` included). -/
theorem claim_C8_draft_to_active_rejected (a : Activity) (r : Option String) (now : Int)
    (h : a.state = "draft") :
    transitionActivityState a "active" r false now = .error ["published"] ∧
    (ActivityStateMachine.transition a "active" r false now).2 = a := by
  have hc : ActivityStateMachine.canTransition a.state "active" = false := by
    rw [h]; decide
  have ht : ActivityStateMachine.transition a "active" r false now = (false, a) := by
    unfold ActivityStateMachine.transition
    simp [hc]
  constructor
  · unfold transitionActivityState
    rw [ht]
    simp [ActivityStateMachine.getValidTransitions, h, activityStateOfString,
      transitionsTable, ActivityState.toStr]
  · rw [ht]

/-- Concrete instantiation of `claim_C8_draft_to_active_rejected`. -/
theorem claim_C8_draft_to_active_rejected_witness :
    (Activity.mk 7 "draft" "draft" none none 5).state = "draft" ∧
    transitionActivityState (Activity.mk 7 "draft" "draft" none none 5) "active" none false 9
      = .error ["published"] ∧
    (ActivityStateMachine.transition (Activity.mk 7 "draft" "draft" none none 5)
      "active" none false 9).2 = Activity.mk 7 "draft" "draft" none none 5 :=
  ⟨rfl,
   (claim_C8_draft_to_active_rejected (Activity.mk 7 "draft" "draft" none none 5) none 9 rfl).1,
   (claim_C8_draft_to_active_rejected (Activity.mk 7 "draft" "draft" none none 5) none 9 rfl).2⟩

/-- Concrete instantiation of the force part of `claim_C1_state_machine_table`. -/
theorem claim_C1_state_machine_table_witness :
    (Activity.mk 3 "expired" "completed" none none 0).state = ActivityState.expired.toStr ∧
    (ActivityStateMachine.transition (Activity.mk 3 "expired" "completed" none none 0)
      "draft" none true 4).1 = true ∧
    (ActivityStateMachine.transition (Activity.mk 3 "expired" "completed" none none 0)
      "draft" none true 4).2.state = "draft" :=
  ⟨rfl,
   (claim_C1_state_machine_table.2.2 (Activity.mk 3 "expired" "completed" none none 0)
     ActivityState.expired ActivityState.draft none 4 rfl).1,
   (claim_C1_state_machine_table.2.2 (Activity.mk 3 "expired" "completed" none none 0)
     ActivityState.expired ActivityState.draft none 4 rfl).2⟩

/-- The record resulting from the automatic-expiry transition performed by
`check_expired_activities` on one due activity. -/
def expireOne (now : Int) (a : Activity) : Activity :=
  (ActivityStateMachine.transition a "expired"
    (some ActivityStateMachine.checkExpiredReason) false now).2

theorem transition_active_to_expired (a : Activity) (r : Option String) (now : Int)
    (h : a.state = "active") :
    (ActivityStateMachine.transition a "expired" r false now).1 = true := by
  have hc : ActivityStateMachine.canTransition a.state "expired" = true := by
    rw [h]; decide
  unfold ActivityStateMachine.transition
  simp [hc]

theorem dueForExpiry_state (a : Activity) (now : Int)
    (h : ActivityStateMachine.dueForExpiry now a = true) : a.state = "active" := by
  unfold ActivityStateMachine.dueForExpiry at h
  exact of_decide_eq_true (Bool.and_elim_left h)

/-- C3 (amended): activating an activity whose metadata carries a nonzero
`duration_seconds` sets `expires_at` to the activation time plus that
duration; `check_expired_activities` transitions exactly the due activities
(state `active`, `expires_at` set and not after the current time) to
`expired` — passing the reason string `"Automatic expiration"` — and returns
exactly that transitioned subset. -/
theorem claim_C3_expiry_amended :
    (∀ (a : Activity) (d : Int) (r : Option String) (f : Bool) (now : Int),
       a.durationSeconds = some d → d ≠ 0 →
       (ActivityStateMachine.transition a "active" r f now).1 = true →
       (ActivityStateMachine.transition a "active" r f now).2.expiresAt = some (now + d)) ∧
    (∀ (activities : List Activity) (now : Int),
       (ActivityStateMachine.checkExpiredActivities activities now).2
         = (activities.filter (ActivityStateMachine.dueForExpiry now)).map (expireOne now) ∧
       ∀ b ∈ (ActivityStateMachine.checkExpiredActivities activities now).2,
         b.state = "expired") ∧
    ActivityStateMachine.checkExpiredReason = "Automatic expiration" := by
  refine ⟨?_, ?_, rfl⟩
  · intro a d r f now hd hdz hok
    unfold ActivityStateMachine.transition at hok ⊢
    by_cases hcond : ¬ f ∧ ¬ ActivityStateMachine.canTransition a.state "active"
    · rw [if_pos hcond] at hok
      simp at hok
    · rw [if_neg hcond] at hok ⊢
      simp only [ActivityStateMachine.handleStateTransition, if_pos rfl]
      unfold ActivityStateMachine.handleActivation
      simp [hd, hdz]
  · intro activities now
    induction activities with
    | nil => simp [ActivityStateMachine.checkExpiredActivities]
    | cons a rest ih =>
      unfold ActivityStateMachine.checkExpiredActivities
      by_cases hdue : ActivityStateMachine.dueForExpiry now a = true
      · have hok := transition_active_to_expired a
          (some ActivityStateMachine.checkExpiredReason) now (dueForExpiry_state a now hdue)
        have hstate : (expireOne now a).state = "expired" := by
          unfold expireOne ActivityStateMachine.transition
          unfold ActivityStateMachine.transition at hok
          by_cases hcond : ¬ false ∧
              ¬ ActivityStateMachine.canTransition a.state "expired"
          · rw [if_pos hcond] at hok; simp at hok
          · rw [if_neg hcond]
            simp [state_handleStateTransition]
        rw [if_pos hdue]
        simp only [hok, if_pos rfl]
        refine ⟨by simp [List.filter_cons, hdue, ih.1]; rfl, ?_⟩
        intro b hb
        rcases List.mem_cons.mp hb with rfl | hb
        · exact hstate
        · exact ih.2 b hb
      · rw [if_neg hdue]
        have hfilter : (a :: rest).filter (ActivityStateMachine.dueForExpiry now)
            = rest.filter (ActivityStateMachine.dueForExpiry now) := by
          simp [List.filter_cons, hdue]
        exact ⟨by rw [hfilter]; exact ih.1, ih.2⟩

/-- An activity whose metadata carries `duration_seconds = 0`: Python's
`if duration_seconds:` truthiness test skips the `expires_at` computation. -/
def zeroDurationActivity : Activity :=
  Activity.mk 11 "published" "draft" (some 0) none 0

/-- C3 counterexample: `zeroDurationActivity` carries a `duration_seconds`
(value `0`) and is successfully transitioned to `active` at time `100`, yet
its `expires_at` is not `100 + 0` (it stays unset); moreover the reason
string used by the auto-expiry sweep is `"Automatic expiration"`, not
`"automatic expiration"` as claimed. -/
theorem claim_C3_expiry_counterexample :
    zeroDurationActivity.durationSeconds = some 0 ∧
    (ActivityStateMachine.transition zeroDurationActivity "active" none false 100).1 = true ∧
    (ActivityStateMachine.transition zeroDurationActivity "active" none false 100).2.expiresAt
      ≠ some (100 + 0) ∧
    ActivityStateMachine.checkExpiredReason ≠ "automatic expiration" := by
  refine ⟨rfl, rfl, ?_, ?_⟩ <;> decide

/-- Concrete instantiation of `claim_C3_expiry_amended`: activation at time
`100` with `duration_seconds = 60` yields `expires_at = 160`, and the sweep
at time `161` expires the activity and returns it. -/
theorem claim_C3_expiry_amended_witness :
    (Activity.mk 12 "published" "draft" (some 60) none 0).durationSeconds = some 60 ∧
    (ActivityStateMachine.transition (Activity.mk 12 "published" "draft" (some 60) none 0)
      "active" none false 100).1 = true ∧
    (ActivityStateMachine.transition (Activity.mk 12 "published" "draft" (some 60) none 0)
      "active" none false 100).2.expiresAt = some 160 ∧
    (ActivityStateMachine.checkExpiredActivities
      [Activity.mk 13 "active" "active" none (some 160) 100] 161).2
      = ([Activity.mk 13 "active" "active" none (some 160) 100].filter
          (ActivityStateMachine.dueForExpiry 161)).map (expireOne 161) :=
  ⟨rfl, rfl,
   claim_C3_expiry_amended.1 (Activity.mk 12 "published" "draft" (some 60) none 0)
     60 none false 100 rfl (by decide) rfl,
   (claim_C3_expiry_amended.2.1 [Activity.mk 13 "active" "active" none (some 160) 100] 161).1⟩

/-! ## Empty-response aggregation (C9, C10) -/

theorem foldl_max_zero (vs : List Int) (v : Int) (hv : v = 0) (h : ∀ x ∈ vs, x = 0) :
    vs.foldl max v = 0 := by
  induction vs generalizing v with
  | nil => simpa using hv
  | cons x vs ih =>
    simp only [List.foldl_cons]
    refine ih _ ?_ (fun y hy => h y (by simp [hy]))
    rw [hv, h x (by simp)]
    simp

theorem maxVotes_zero (l : List (String × Int))
    (h : ∀ kv ∈ l, kv.2 = 0) :
    listMaxD (l.map Prod.snd) 0 = 0 := by
  unfold listMaxD
  cases hl : l.map Prod.snd with
  | nil => rfl
  | cons v vs =>
    have hv : ∀ x ∈ v :: vs, x = 0 := by
      rw [← hl]
      intro x hx
      rcases List.mem_map.mp hx with ⟨kv, hkv, rfl⟩
      exact h kv hkv
    exact foldl_max_zero vs v (hv v (by simp)) (fun x hx => hv x (by simp [hx]))

theorem dedupFirstAux_of_nodup {α : Type} [DecidableEq α] (l : List α) (seen : List α)
    (hnd : l.Nodup) (hdisj : ∀ a ∈ l, a ∉ seen) : dedupFirstAux seen l = l := by
  induction l generalizing seen with
  | nil => rfl
  | cons a l ih =>
    have ha : a ∉ seen := hdisj a (by simp)
    simp only [dedupFirstAux, if_neg ha]
    rw [ih (a :: seen) (List.nodup_cons.mp hnd).2 ?_]
    intro b hb
    simp only [List.mem_cons, not_or]
    exact ⟨fun hba => (List.nodup_cons.mp hnd).1 (hba ▸ hb), hdisj b (by simp [hb])⟩

theorem dedupFirst_of_nodup {α : Type} [DecidableEq α] (l : List α) (hnd : l.Nodup) :
    dedupFirst l = l :=
  dedupFirstAux_of_nodup l [] hnd (by simp)

/-- C9: for each of the three kinds, `calculate_results` on the empty
response list returns the zeroed aggregate document without raising: the
poll document has `total_responses = 0`, a `0.0` percentage and a zero vote
count for every option; the QnA document has `total_questions = 0` and
`total_votes = 0`; the word-cloud document has `unique_word_count = 0` (and
no word submissions). -/
theorem claim_C9_empty_results :
    (∀ cfg : PollConfig, ∃ r, PollingActivity.calculateResults cfg [] = .ok (.results r) ∧
       r.totalResponses = 0 ∧ (∀ o ∈ cfg.options, r.percentages.lookup o = some 0) ∧
       (∀ kv ∈ r.voteCounts, kv.2 = 0)) ∧
    (∀ cfg : QnaConfig, ∃ r, QnaActivity.calculateResults cfg [] = .ok (.results r) ∧
       r.totalQuestions = 0 ∧ r.totalVotes = 0) ∧
    (∀ cfg : WordCloudConfig, ∃ r, WordCloudActivity.calculateResults cfg [] = .ok (.results r) ∧
       r.uniqueWordCount = 0 ∧ r.totalWordSubmissions = 0) := by
  refine ⟨?_, ?_, ?_⟩
  · intro cfg
    refine ⟨_, rfl, rfl, ?_, ?_⟩
    · intro o ho
      dsimp only
      rw [if_neg (by decide : ¬ ((0 : Int) > 0))]
      exact lookup_constFold cfg.options 0 [] o (Or.inl ho)
    · exact mem_values_constFold cfg.options 0 [] (by simp)
  · intro cfg
    exact ⟨_, rfl, rfl, rfl⟩
  · intro cfg
    exact ⟨_, rfl, rfl, rfl⟩

/-- C10 (amended): on the empty response list every (distinct) option is
tied at the maximum count `0`, so `most_popular` equals the configured
options list with duplicate options removed (first occurrence kept) — which
is the full options list whenever the options are pairwise distinct. -/
theorem claim_C10_empty_most_popular_amended (cfg : PollConfig) :
    ∃ r, PollingActivity.calculateResults cfg [] = .ok (.results r) ∧
      r.mostPopular = dedupFirst cfg.options ∧
      (cfg.options.Nodup → r.mostPopular = cfg.options) := by
  have hall : ∀ kv ∈ cfg.options.foldl (fun d o => updInsert d o (0 : Int)) [], kv.2 = 0 :=
    mem_values_constFold cfg.options 0 [] (by simp)
  have hmax := maxVotes_zero _ hall
  refine ⟨_, rfl, ?_, ?_⟩
  · dsimp only
    simp only [hmax]
    rw [List.filter_eq_self.mpr (fun kv hkv => decide_eq_true (hall kv hkv))]
    have := map_fst_constFold cfg.options (0 : Int) []
    simpa [dedupFirst] using this
  · intro hnd
    dsimp only
    simp only [hmax]
    rw [List.filter_eq_self.mpr (fun kv hkv => decide_eq_true (hall kv hkv))]
    have h2 : (cfg.options.foldl (fun d o => updInsert d o (0 : Int)) []).map Prod.fst
        = dedupFirst cfg.options := by
      simpa [dedupFirst] using map_fst_constFold cfg.options (0 : Int) []
    rw [h2, dedupFirst_of_nodup cfg.options hnd]

/-- The `most_popular` list of a poll outcome (empty for the error document,
which carries no aggregation). -/
def PollingActivity.PollOutcome.mostPopularOf : PollingActivity.PollOutcome → List String
  | .results r => r.mostPopular
  | .errorDoc _ _ => []

/-- The `vote_counts` dict of a poll outcome (empty for the error document,
which carries no aggregation). -/
def PollingActivity.PollOutcome.voteCountsOf :
    PollingActivity.PollOutcome → List (String × Int)
  | .results r => r.voteCounts
  | .errorDoc _ _ => []

/-- A valid poll configuration (it passes `validate_config`: 2–10 non-empty
options) whose options list contains a duplicate. -/
def dupOptionsConfig : PollConfig :=
  PollConfig.mk "Pick" ["A", "A"] false true true

/-- C10 counterexample: with the duplicate-option configuration
`options = ["A", "A"]`, `calculate_results` on zero responses reports
`most_popular = ["A"]` — the `vote_counts` dict de-duplicates keys — which is
not the full configured options list. -/
theorem claim_C10_empty_most_popular_counterexample :
    dupOptionsConfig.options = ["A", "A"] ∧
    (PollingActivity.calculateResults dupOptionsConfig []).map
      PollingActivity.PollOutcome.mostPopularOf = .ok ["A"] ∧
    (["A"] : List String) ≠ dupOptionsConfig.options := by
  refine ⟨rfl, rfl, by decide⟩

/-- Concrete instantiation of `claim_C10_empty_most_popular_amended` at a
duplicate-free configuration. -/
theorem claim_C10_empty_most_popular_amended_witness :
    (["A", "B"] : List String).Nodup ∧
    (∃ r, PollingActivity.calculateResults (PollConfig.mk "Pick" ["A", "B"] false true true) []
        = .ok (.results r) ∧
      r.mostPopular = dedupFirst ["A", "B"] ∧
      ((["A", "B"] : List String).Nodup → r.mostPopular = ["A", "B"])) :=
  ⟨by decide, claim_C10_empty_most_popular_amended (PollConfig.mk "Pick" ["A", "B"] false true true)⟩

/-! ## Defensive aggregation (C2) -/

/-- C2 (amended): for each of the three kinds and every response list,
`calculate_results` never raises — the catch-all `except` clause converts any
internal error into an error document returned to the caller. -/
theorem claim_C2_no_raise_amended :
    (∀ (cfg : PollConfig) (rs : List Json),
       ∃ d, PollingActivity.calculateResults cfg rs = .ok d) ∧
    (∀ (cfg : QnaConfig) (rs : List Json),
       ∃ d, QnaActivity.calculateResults cfg rs = .ok d) ∧
    (∀ (cfg : WordCloudConfig) (rs : List Json),
       ∃ d, WordCloudActivity.calculateResults cfg rs = .ok d) := by
  refine ⟨?_, ?_, ?_⟩
  · intro cfg rs
    unfold PollingActivity.calculateResults
    cases PollingActivity.calculateResultsBody cfg rs with
    | ok r => exact ⟨_, rfl⟩
    | error e => exact ⟨_, rfl⟩
  · intro cfg rs
    unfold QnaActivity.calculateResults
    cases QnaActivity.calculateResultsBody cfg rs with
    | ok r => exact ⟨_, rfl⟩
    | error e => exact ⟨_, rfl⟩
  · intro cfg rs
    unfold WordCloudActivity.calculateResults
    cases WordCloudActivity.calculateResultsBody cfg rs with
    | ok r => exact ⟨_, rfl⟩
    | error e => exact ⟨_, rfl⟩

/-- A well-formed stored poll response selecting option `"A"`. -/
def wellFormedPollResponse : Json :=
  Json.obj [("response_data", Json.obj [("selected_options", Json.arr [jstr "A"])])]

/-- A malformed stored poll response: `selected_options` is the integer `42`,
which raises `TypeError` when the aggregation loop iterates over it. -/
def malformedPollResponse : Json :=
  Json.obj [("response_data", Json.obj [("selected_options", jint 42)])]

/-- C2 counterexample: a malformed entry is not skipped — aggregating the
well-formed response alone yields `vote_counts = {"A": 1, "B": 0}`, but
adding the malformed entry makes `calculate_results` return the error
document, which carries no vote counts at all: the whole aggregation is
aborted rather than the malformed entry ignored. -/
theorem claim_C2_skip_counterexample :
    (PollingActivity.calculateResults (PollConfig.mk "Q" ["A", "B"] false true true)
        [wellFormedPollResponse]).map PollingActivity.PollOutcome.isErrorDoc = .ok false ∧
    (PollingActivity.calculateResults (PollConfig.mk "Q" ["A", "B"] false true true)
        [wellFormedPollResponse]).map PollingActivity.PollOutcome.voteCountsOf
      = .ok [("A", 1), ("B", 0)] ∧
    (PollingActivity.calculateResults (PollConfig.mk "Q" ["A", "B"] false true true)
        [wellFormedPollResponse, malformedPollResponse]).map
        PollingActivity.PollOutcome.isErrorDoc = .ok true ∧
    (PollingActivity.calculateResults (PollConfig.mk "Q" ["A", "B"] false true true)
        [wellFormedPollResponse, malformedPollResponse]).map
        PollingActivity.PollOutcome.voteCountsOf = .ok [] := by
  refine ⟨rfl, rfl, rfl, rfl⟩

/-! ## Poll response validation (C7) -/

theorem pym_bind_ok {α β : Type} (a : α) (f : α → PyM β) :
    (Except.ok a >>= f : PyM β) = f a := rfl

theorem pym_bind_error {α β : Type} (e : String) (f : α → PyM β) :
    ((Except.error e : PyM α) >>= f : PyM β) = .error e := rfl

theorem pym_throw {α : Type} (e : String) : (throw e : PyM α) = Except.error e := rfl

theorem pym_pure {α : Type} (a : α) : (pure a : PyM α) = Except.ok a := rfl

theorem checkSelectedOptions_error_of_invalid (validOptions : List String)
    (sel : List Json) (o : Json) (ho : o ∈ sel)
    (hbad : ∀ s ∈ validOptions, o.eqStr s = false) :
    ∃ e, PollingActivity.checkSelectedOptions validOptions sel = .error e := by
  induction sel with
  | nil => simp at ho
  | cons x rest ih =>
    unfold PollingActivity.checkSelectedOptions
    by_cases hx : validOptions.any (fun s => x.eqStr s) = true
    · rw [if_pos hx]
      rcases List.mem_cons.mp ho with rfl | ho'
      · exfalso
        rcases List.any_eq_true.mp hx with ⟨s, hs, he⟩
        rw [hbad s hs] at he
        exact Bool.false_ne_true he
      · exact ih ho'
    · rw [if_neg hx]
      exact ⟨_, rfl⟩

theorem checkSelectedOptions_ok_valid (validOptions : List String) (sel : List Json)
    (h : PollingActivity.checkSelectedOptions validOptions sel = .ok ()) :
    ∀ o ∈ sel, validOptions.any (fun s => o.eqStr s) = true := by
  induction sel with
  | nil => simp
  | cons x rest ih =>
    unfold PollingActivity.checkSelectedOptions at h
    by_cases hx : validOptions.any (fun s => x.eqStr s) = true
    · rw [if_pos hx] at h
      intro o ho
      rcases List.mem_cons.mp ho with rfl | ho'
      · exact hx
      · exact ih h o ho'
    · rw [if_neg hx] at h
      exact absurd h (by simp)

theorem processResponse_error_of_body (cfg : PollConfig) (pid : Int) (rd : Json)
    (now : String) (e : String)
    (h : PollingActivity.processResponseBody cfg pid rd now = .error e) :
    PollingActivity.processResponse cfg pid rd now
      = .error ("Failed to process polling response: " ++ e) := by
  unfold PollingActivity.processResponse
  rw [h]

/-- C7: poll `process_response` rejects (raises, so no normalized payload is
returned) a missing or empty `selected_options` list, any selected option
not present in the configured options (no string option compares equal to
it), and more than one selection when multiple choice is disallowed. -/
theorem claim_C7_poll_response_rejections :
    (∀ (cfg : PollConfig) (pid : Int) (now : String) (kvs : List (String × Json)),
       (kvs.lookup "selected_options" = none ∨
        kvs.lookup "selected_options" = some (Json.arr [])) →
       ∃ e, PollingActivity.processResponse cfg pid (Json.obj kvs) now = .error e) ∧
    (∀ (cfg : PollConfig) (pid : Int) (now : String) (sel : List Json) (o : Json),
       o ∈ sel → (∀ s ∈ cfg.options, o.eqStr s = false) →
       ∃ e, PollingActivity.processResponse cfg pid
         (Json.obj [("selected_options", Json.arr sel)]) now = .error e) ∧
    (∀ (cfg : PollConfig) (pid : Int) (now : String) (sel : List Json),
       cfg.allowMultipleChoice = false → 1 < sel.length →
       ∃ e, PollingActivity.processResponse cfg pid
         (Json.obj [("selected_options", Json.arr sel)]) now = .error e) := by
  refine ⟨?_, ?_, ?_⟩
  · intro cfg pid now kvs h
    have hbody : ∃ e, PollingActivity.processResponseBody cfg pid (Json.obj kvs) now
        = .error e := by
      unfold PollingActivity.processResponseBody
      have hget : (Json.obj kvs).get "selected_options" (Json.arr [])
          = .ok (Json.arr []) := by
        rcases h with h | h <;> simp [Json.get, h]
      rw [hget, pym_bind_ok]
      dsimp only
      by_cases hopt : cfg.options.isEmpty = true
      · rw [if_pos hopt]
        exact ⟨_, rfl⟩
      · rw [if_neg hopt]
        refine ⟨"At least one option must be selected", ?_⟩
        simp [PollingActivity.checkSelectedOptions, pym_bind_ok, pym_bind_error,
          pym_throw, pym_pure]
    obtain ⟨e, he⟩ := hbody
    exact ⟨_, processResponse_error_of_body cfg pid _ now e he⟩
  · intro cfg pid now sel o ho hbad
    have hbody : ∃ e, PollingActivity.processResponseBody cfg pid
        (Json.obj [("selected_options", Json.arr sel)]) now = .error e := by
      unfold PollingActivity.processResponseBody
      have hget : (Json.obj [("selected_options", Json.arr sel)]).get "selected_options"
          (Json.arr []) = .ok (Json.arr sel) := by simp [Json.get]
      rw [hget, pym_bind_ok]
      dsimp only
      by_cases hopt : cfg.options.isEmpty = true
      · rw [if_pos hopt]
        exact ⟨_, rfl⟩
      · rw [if_neg hopt]
        obtain ⟨e, hchk⟩ := checkSelectedOptions_error_of_invalid cfg.options sel o ho hbad
        refine ⟨e, ?_⟩
        simp [hchk, pym_bind_error]
    obtain ⟨e, he⟩ := hbody
    exact ⟨_, processResponse_error_of_body cfg pid _ now e he⟩
  · intro cfg pid now sel hm hlen
    have hbody : ∃ e, PollingActivity.processResponseBody cfg pid
        (Json.obj [("selected_options", Json.arr sel)]) now = .error e := by
      unfold PollingActivity.processResponseBody
      have hget : (Json.obj [("selected_options", Json.arr sel)]).get "selected_options"
          (Json.arr []) = .ok (Json.arr sel) := by simp [Json.get]
      rw [hget, pym_bind_ok]
      dsimp only
      by_cases hopt : cfg.options.isEmpty = true
      · rw [if_pos hopt]
        exact ⟨_, rfl⟩
      · rw [if_neg hopt]
        cases hchk : PollingActivity.checkSelectedOptions cfg.options sel with
        | error e =>
          refine ⟨e, ?_⟩
          simp [hchk, pym_bind_error]
        | ok u =>
          cases u
          refine ⟨"Multiple choices not allowed for this poll", ?_⟩
          simp only [pym_pure, pym_bind_ok]
          rw [if_pos (show ¬ cfg.allowMultipleChoice = true ∧ sel.length > 1 from by
            simp [hm, hlen])]
          simp [pym_bind_error, pym_throw]
    obtain ⟨e, he⟩ := hbody
    exact ⟨_, processResponse_error_of_body cfg pid _ now e he⟩

/-- Concrete instantiations of the three parts of
`claim_C7_poll_response_rejections`: an empty selection, an invalid option
and a double selection on a single-choice poll are all rejected. -/
theorem claim_C7_poll_response_rejections_witness :
    (∃ e, PollingActivity.processResponse (PollConfig.mk "Q" ["A", "B"] false true true)
      1 (Json.obj [("selected_options", Json.arr [])]) "t" = .error e) ∧
    (∃ e, PollingActivity.processResponse (PollConfig.mk "Q" ["A", "B"] false true true)
      1 (Json.obj [("selected_options", Json.arr [jstr "C"])]) "t" = .error e) ∧
    (∃ e, PollingActivity.processResponse (PollConfig.mk "Q" ["A", "B"] false true true)
      1 (Json.obj [("selected_options", Json.arr [jstr "A", jstr "B"])]) "t" = .error e) :=
  ⟨claim_C7_poll_response_rejections.1 (PollConfig.mk "Q" ["A", "B"] false true true)
     1 "t" [("selected_options", Json.arr [])] (Or.inr rfl),
   claim_C7_poll_response_rejections.2.1 (PollConfig.mk "Q" ["A", "B"] false true true)
     1 "t" [jstr "C"] (jstr "C") (by simp) (by decide),
   claim_C7_poll_response_rejections.2.2 (PollConfig.mk "Q" ["A", "B"] false true true)
     1 "t" [jstr "A", jstr "B"] rfl (by decide)⟩

/-! ## Poll vote-count conservation (C4) -/

theorem Json.eqStr_true_iff (j : Json) (t : String) : j.eqStr t = true ↔ j = jstr t := by
  cases j with
  | scalar v => cases v <;> simp [Json.eqStr, jstr]
  | arr xs => simp [Json.eqStr, jstr]
  | obj kvs => simp [Json.eqStr, jstr]

/-- A single-option payload submission, as sent by a poll participant. -/
def selOf (xs : List String) : Json :=
  Json.obj [("selected_options", Json.arr (xs.map jstr))]

/-- A stored response entry whose `response_data` was produced by
`PollingActivity.process_response` under the given configuration. -/
def IsProcessedSingle (cfg : PollConfig) (j : Json) : Prop :=
  ∃ (pid : Int) (rd : Json) (now : String) (d : Json) (rest : List (String × Json)),
    PollingActivity.processResponse cfg pid rd now = .ok d ∧
    j = Json.obj (("response_data", d) :: rest)

theorem processResponse_ok_body (cfg : PollConfig) (pid : Int) (rd : Json)
    (now : String) (d : Json)
    (h : PollingActivity.processResponse cfg pid rd now = .ok d) :
    PollingActivity.processResponseBody cfg pid rd now = .ok d := by
  unfold PollingActivity.processResponse at h
  cases hb : PollingActivity.processResponseBody cfg pid rd now with
  | ok r => rw [hb] at h; exact h
  | error e => rw [hb] at h; exact absurd h (by simp)

theorem processResponseBody_single_shape (cfg : PollConfig) (pid : Int) (rd : Json)
    (now : String) (d : Json) (hm : cfg.allowMultipleChoice = false)
    (hok : PollingActivity.processResponseBody cfg pid rd now = .ok d) :
    ∃ s, s ∈ cfg.options ∧
      d.get "selected_options" (Json.arr []) = .ok (Json.arr [jstr s]) := by
  unfold PollingActivity.processResponseBody at hok
  cases rd with
  | scalar v => exact absurd hok (by simp [Json.get, pym_bind_error])
  | arr xs => exact absurd hok (by simp [Json.get, pym_bind_error])
  | obj kvs =>
    rw [show (Json.obj kvs).get "selected_options" (Json.arr [])
        = .ok ((kvs.lookup "selected_options").getD (Json.arr [])) from rfl,
      pym_bind_ok] at hok
    cases hv : (kvs.lookup "selected_options").getD (Json.arr []) with
    | scalar v => rw [hv] at hok; exact absurd hok (by simp)
    | obj kvs2 => rw [hv] at hok; exact absurd hok (by simp)
    | arr sel =>
      rw [hv] at hok
      dsimp only at hok
      by_cases hopt : cfg.options.isEmpty = true
      · rw [if_pos hopt] at hok
        exact absurd hok (by simp [pym_throw, pym_bind_error])
      · rw [if_neg hopt] at hok
        cases hchk : PollingActivity.checkSelectedOptions cfg.options sel with
        | error e =>
          rw [hchk] at hok
          exact absurd hok (by simp [pym_bind_error])
        | ok u =>
          cases u
          rw [hchk, pym_bind_ok] at hok
          by_cases h1 : ¬ cfg.allowMultipleChoice = true ∧ sel.length > 1
          · rw [if_pos h1] at hok
            exact absurd hok (by simp [pym_throw, pym_bind_error])
          · rw [if_neg h1] at hok
            simp only [pym_pure, pym_bind_ok] at hok
            by_cases h2 : sel.length = 0
            · rw [if_pos h2] at hok
              exact absurd hok (by simp [pym_throw, pym_bind_error])
            · rw [if_neg h2] at hok
              try simp only [pym_pure, pym_bind_ok] at hok
              have hng : ¬ sel.length > 1 := fun hgt => h1 ⟨by simp [hm], hgt⟩
              have hlen : sel.length = 1 := by omega
              obtain ⟨o, rfl⟩ := List.length_eq_one.mp hlen
              have hval := checkSelectedOptions_ok_valid cfg.options [o] hchk o (by simp)
              obtain ⟨s, hs, he⟩ := List.any_eq_true.mp hval
              obtain rfl := (Json.eqStr_true_iff o s).mp he
              refine ⟨s, hs, ?_⟩
              by_cases hanon : ¬ cfg.anonymousVoting = true
              · rw [if_pos hanon] at hok
                have hd : d = Json.obj
                    ([("type", jstr "poll_response"), ("participant_id", jint pid),
                      ("selected_options", Json.arr [jstr s]), ("timestamp", jstr now),
                      ("anonymous", jbool cfg.anonymousVoting)]
                      ++ [("participant_info", Json.obj [("id", jint pid)])]) := by
                  try rw [pym_pure] at hok
                  exact (Except.ok.inj hok).symm
                rw [hd]
                rfl
              · rw [if_neg hanon] at hok
                have hd : d = Json.obj
                    [("type", jstr "poll_response"), ("participant_id", jint pid),
                     ("selected_options", Json.arr [jstr s]), ("timestamp", jstr now),
                     ("anonymous", jbool cfg.anonymousVoting)] := by
                  try rw [pym_pure] at hok
                  exact (Except.ok.inj hok).symm
                rw [hd]
                rfl

theorem calcStep_processed (acc : PollingActivity.PollAcc) (d : Json)
    (rest : List (String × Json)) (s : String) (c : Int)
    (hd : d.get "selected_options" (Json.arr []) = .ok (Json.arr [jstr s]))
    (hc : acc.voteCounts.lookup s = some c) :
    ∃ acc', PollingActivity.calcStep acc (Json.obj (("response_data", d) :: rest)) = .ok acc' ∧
      acc'.voteCounts = updInsert acc.voteCounts s (c + 1) ∧
      acc'.totalResponses = acc.totalResponses + 1 := by
  unfold PollingActivity.calcStep
  rw [show (Json.obj (("response_data", d) :: rest)).get "response_data" (Json.obj [])
      = .ok d from by simp [Json.get], pym_bind_ok]
  rw [hd, pym_bind_ok]
  rw [show (Json.arr [jstr s]).pyIter = .ok [jstr s] from rfl, pym_bind_ok]
  rw [show PollingActivity.countOptions acc.voteCounts [jstr s]
      = .ok (updInsert acc.voteCounts s (c + 1)) from by
    unfold PollingActivity.countOptions
    simp [Json.asKey, jstr, hc, pym_bind_ok, PollingActivity.countOptions], pym_bind_ok]
  exact ⟨_, rfl, rfl, rfl⟩

theorem pollFold_invariant (cfg : PollConfig) (hm : cfg.allowMultipleChoice = false)
    (rs : List Json) (hall : ∀ j ∈ rs, IsProcessedSingle cfg j)
    (acc : PollingActivity.PollAcc)
    (hkeys : ∀ o ∈ cfg.options, (acc.voteCounts.lookup o).isSome)
    (hsum : (acc.voteCounts.map Prod.snd).sum = acc.totalResponses) :
    ∃ acc', rs.foldlM PollingActivity.calcStep acc = .ok acc' ∧
      (acc'.voteCounts.map Prod.snd).sum = acc'.totalResponses := by
  induction rs generalizing acc with
  | nil => exact ⟨acc, rfl, hsum⟩
  | cons j rs ih =>
    obtain ⟨pid, rd, now, d, rest, hok, rfl⟩ := hall _ (List.mem_cons_self _ _)
    obtain ⟨s, hs, hd⟩ := processResponseBody_single_shape cfg pid rd now d hm
      (processResponse_ok_body cfg pid rd now d hok)
    obtain ⟨c, hc⟩ := Option.isSome_iff_exists.mp (hkeys s hs)
    obtain ⟨acc', hstep, hvc, htot⟩ := calcStep_processed acc d rest s c hd hc
    have hkeys' : ∀ o ∈ cfg.options, (acc'.voteCounts.lookup o).isSome := by
      intro o ho
      rw [hvc]
      by_cases heq : o = s
      · subst heq
        rw [lookup_updInsert_self]
        simp
      · rw [lookup_updInsert_ne _ _ _ _ heq]
        exact hkeys o ho
    have hsum' : (acc'.voteCounts.map Prod.snd).sum = acc'.totalResponses := by
      rw [hvc, htot, updInsert_sum_incr acc.voteCounts s c hc, hsum]
    rw [List.foldlM_cons, hstep, pym_bind_ok]
    exact ih (fun j hj => hall j (List.mem_cons_of_mem _ hj)) acc' hkeys' hsum'

/-- The scenario poll configuration `{question: "Pick one", options: ["A","B"],
allow_multiple_choice: false}`. -/
def scenarioPollConfig : PollConfig :=
  PollConfig.mk "Pick one" ["A", "B"] false true true

/-- The normalized payload `process_response` produces for the scenario
(anonymous voting defaults to true, so no `participant_info` is attached). -/
def scenProcessed (xs : List String) (pid : Int) (ts : String) : Json :=
  Json.obj [("type", jstr "poll_response"), ("participant_id", jint pid),
    ("selected_options", Json.arr (xs.map jstr)), ("timestamp", jstr ts),
    ("anonymous", jbool true)]

/-- The three stored scenario responses: two participants pick `"A"`, one
picks `"B"`. -/
def scenarioResponses : List Json :=
  [Json.obj [("response_data", scenProcessed ["A"] 1 "t1")],
   Json.obj [("response_data", scenProcessed ["A"] 2 "t2")],
   Json.obj [("response_data", scenProcessed ["B"] 3 "t3")]]

/-- The `percentages` dict of a poll outcome. -/
def PollingActivity.PollOutcome.percentagesOf :
    PollingActivity.PollOutcome → List (String × ℚ)
  | .results r => r.percentages
  | .errorDoc _ _ => []

/-- C4: for every single-choice poll configuration and every response list
whose entries carry payloads produced by `process_response`, the vote counts
sum to `total_responses`; and on the concrete scenario (options `["A","B"]`,
votes A, A, B) `calculate_results` reports `vote_counts = {"A": 2, "B": 1}`,
`percentages = {"A": 66.7, "B": 33.3}` and `most_popular = ["A"]`. -/
theorem claim_C4_single_choice_sum :
    (∀ (cfg : PollConfig), cfg.allowMultipleChoice = false →
       ∀ rs : List Json, (∀ j ∈ rs, IsProcessedSingle cfg j) →
       ∃ r, PollingActivity.calculateResults cfg rs = .ok (.results r) ∧
         (r.voteCounts.map Prod.snd).sum = r.totalResponses) ∧
    (PollingActivity.processResponse scenarioPollConfig 1 (selOf ["A"]) "t1"
       = .ok (scenProcessed ["A"] 1 "t1") ∧
     PollingActivity.processResponse scenarioPollConfig 2 (selOf ["A"]) "t2"
       = .ok (scenProcessed ["A"] 2 "t2") ∧
     PollingActivity.processResponse scenarioPollConfig 3 (selOf ["B"]) "t3"
       = .ok (scenProcessed ["B"] 3 "t3") ∧
     (PollingActivity.calculateResults scenarioPollConfig scenarioResponses).map
       PollingActivity.PollOutcome.voteCountsOf = .ok [("A", 2), ("B", 1)] ∧
     (PollingActivity.calculateResults scenarioPollConfig scenarioResponses).map
       PollingActivity.PollOutcome.percentagesOf
       = .ok [("A", (667 : ℚ)/10), ("B", (333 : ℚ)/10)] ∧
     (PollingActivity.calculateResults scenarioPollConfig scenarioResponses).map
       PollingActivity.PollOutcome.mostPopularOf = .ok ["A"]) := by
  constructor
  · intro cfg hm rs hall
    have hkeys0 : ∀ o ∈ cfg.options,
        ((cfg.options.foldl (fun d o => updInsert d o (0 : Int)) []).lookup o).isSome := by
      intro o ho
      rw [lookup_constFold cfg.options 0 [] o (Or.inl ho)]
      simp
    have hsum0 : (((cfg.options.foldl (fun d o => updInsert d o (0 : Int)) []).map
        Prod.snd).sum : Int) = 0 := by
      refine List.sum_eq_zero ?_
      intro x hx
      rcases List.mem_map.mp hx with ⟨kv, hkv, rfl⟩
      exact mem_values_constFold cfg.options 0 [] (by simp) kv hkv
    obtain ⟨acc', hfold, hsum'⟩ := pollFold_invariant cfg hm rs hall
      ⟨cfg.options.foldl (fun d o => updInsert d o (0 : Int)) [], 0, []⟩ hkeys0 hsum0
    unfold PollingActivity.calculateResults PollingActivity.calculateResultsBody
    dsimp only
    rw [hfold, pym_bind_ok]
    exact ⟨_, rfl, hsum'⟩
  · refine ⟨rfl, rfl, rfl, rfl, ?_, rfl⟩
    have hmid : (PollingActivity.calculateResults scenarioPollConfig scenarioResponses).map
        PollingActivity.PollOutcome.percentagesOf
        = .ok [("A", pyRound1 ((2 : ℚ) / (3 : ℚ) * 100)),
               ("B", pyRound1 ((1 : ℚ) / (3 : ℚ) * 100))] := rfl
    rw [hmid,
      show pyRound1 ((2 : ℚ) / (3 : ℚ) * 100) = (667 : ℚ)/10 from by
        norm_num [pyRound1, pyRoundInt],
      show pyRound1 ((1 : ℚ) / (3 : ℚ) * 100) = (333 : ℚ)/10 from by
        norm_num [pyRound1, pyRoundInt]]

/-- Concrete instantiation of the universal part of
`claim_C4_single_choice_sum` on the scenario responses. -/
theorem claim_C4_single_choice_sum_witness :
    scenarioPollConfig.allowMultipleChoice = false ∧
    (∃ r, PollingActivity.calculateResults scenarioPollConfig scenarioResponses
        = .ok (.results r) ∧
      (r.voteCounts.map Prod.snd).sum = r.totalResponses) :=
  ⟨rfl,
   claim_C4_single_choice_sum.1 scenarioPollConfig rfl scenarioResponses (by
     intro j hj
     rcases List.mem_cons.mp hj with rfl | hj
     · exact ⟨1, selOf ["A"], "t1", scenProcessed ["A"] 1 "t1", [], rfl, rfl⟩
     rcases List.mem_cons.mp hj with rfl | hj
     · exact ⟨2, selOf ["A"], "t2", scenProcessed ["A"] 2 "t2", [], rfl, rfl⟩
     rcases List.mem_cons.mp hj with rfl | hj
     · exact ⟨3, selOf ["B"], "t3", scenProcessed ["B"] 3 "t3", [], rfl, rfl⟩
     · simp at hj)⟩

/-! ## WordCloud word rejection (C6) -/

theorem mapM_error_of_mem {α β : Type} (f : α → PyM β) (l : List α) (x : α) (hx : x ∈ l)
    (hf : ∃ e, f x = .error e) : ∃ e, l.mapM f = .error e := by
  induction l with
  | nil => simp at hx
  | cons a l ih =>
    cases hfa : f a with
    | error e => exact ⟨e, by simp only [List.mapM_cons, hfa, pym_bind_error]⟩
    | ok b =>
      rcases List.mem_cons.mp hx with rfl | hx'
      · obtain ⟨e, he⟩ := hf
        rw [hfa] at he
        exact absurd he (by simp)
      · obtain ⟨e, hrec⟩ := ih hx'
        refine ⟨e, ?_⟩
        simp only [List.mapM_cons, hfa, pym_bind_ok, hrec, pym_bind_error]

theorem processWord_rejects (cfg : WordCloudConfig) (s : String)
    (hbad : WordCloudActivity.pyLower (WordCloudActivity.normalizeWord cfg s)
        ∈ cfg.bannedWords.map WordCloudActivity.pyLower ∨
      cfg.maxWordLength < ((WordCloudActivity.normalizeWord cfg s).length : Int)) :
    ∃ e, WordCloudActivity.processWord cfg (jstr s) = .error e := by
  unfold WordCloudActivity.processWord jstr
  dsimp only
  by_cases h0 : WordCloudActivity.normalizeWord cfg s = ""
  · rw [if_pos h0]
    exact ⟨_, rfl⟩
  · rw [if_neg h0]
    by_cases h1 : ((WordCloudActivity.normalizeWord cfg s).length : Int) > cfg.maxWordLength
    · rw [if_pos h1]
      exact ⟨_, rfl⟩
    · rw [if_neg h1]
      rcases hbad with hban | hlong
      · by_cases h2 : ¬ cfg.allowPhrases = true ∧
            (WordCloudActivity.normalizeWord cfg s).contains ' ' = true
        · rw [if_pos h2]
          exact ⟨_, rfl⟩
        · rw [if_neg h2]
          rw [if_pos hban]
          exact ⟨_, rfl⟩
      · exact absurd hlong h1

theorem wcProcessResponse_error_of_body (cfg : WordCloudConfig) (pid : Int) (rd : Json)
    (now : String) (e : String)
    (h : WordCloudActivity.processResponseBody cfg pid rd now = .error e) :
    WordCloudActivity.processResponse cfg pid rd now
      = .error ("Failed to process Word Cloud response: " ++ e) := by
  unfold WordCloudActivity.processResponse
  rw [h]

/-- C6: word-cloud `process_response` rejects every submission containing a
word whose normalized form matches the banned-word list case-insensitively,
and every submission containing a word whose normalized form exceeds
`max_word_length` characters. -/
theorem claim_C6_wordcloud_rejections (cfg : WordCloudConfig) (pid : Int) (now : String)
    (ws : List Json) (s : String) (hmem : jstr s ∈ ws)
    (hbad : WordCloudActivity.pyLower (WordCloudActivity.normalizeWord cfg s)
        ∈ cfg.bannedWords.map WordCloudActivity.pyLower ∨
      cfg.maxWordLength < ((WordCloudActivity.normalizeWord cfg s).length : Int)) :
    ∃ e, WordCloudActivity.processResponse cfg pid
      (Json.obj [("words", Json.arr ws)]) now = .error e := by
  have hbody : ∃ e, WordCloudActivity.processResponseBody cfg pid
      (Json.obj [("words", Json.arr ws)]) now = .error e := by
    unfold WordCloudActivity.processResponseBody
    rw [show (Json.obj [("words", Json.arr ws)]).get "words" (Json.arr [])
        = .ok (Json.arr ws) from by simp [Json.get], pym_bind_ok]
    dsimp only
    rw [if_neg (by
      intro hlen
      rw [List.length_eq_zero.mp hlen] at hmem
      simp at hmem)]
    by_cases hmax : (ws.length : Int) > cfg.maxWordsPerSubmission
    · rw [if_pos hmax]
      exact ⟨_, rfl⟩
    · rw [if_neg hmax]
      obtain ⟨e, he⟩ := mapM_error_of_mem (WordCloudActivity.processWord cfg) ws
        (jstr s) hmem (processWord_rejects cfg s hbad)
      refine ⟨e, ?_⟩
      simp only [pym_pure, pym_bind_ok, he, pym_bind_error]
  obtain ⟨e, he⟩ := hbody
  exact ⟨_, wcProcessResponse_error_of_body cfg pid _ now e he⟩

/-- Concrete instantiations of `claim_C6_wordcloud_rejections`: the banned
word `"BAD"` submitted as `"bad."` is rejected, and with `max_word_length=3`
the word `"abcd"` is rejected. -/
theorem claim_C6_wordcloud_rejections_witness :
    jstr "bad." ∈ [jstr "bad."] ∧
    WordCloudActivity.pyLower (WordCloudActivity.normalizeWord
        (WordCloudConfig.mk "P" 20 3 false false false true ["BAD"]) "bad.")
      ∈ (["BAD"].map WordCloudActivity.pyLower) ∧
    (∃ e, WordCloudActivity.processResponse
      (WordCloudConfig.mk "P" 20 3 false false false true ["BAD"]) 1
      (Json.obj [("words", Json.arr [jstr "bad."])]) "t" = .error e) ∧
    (3 : Int) < (((WordCloudActivity.normalizeWord
        (WordCloudConfig.mk "P" 3 3 false false false true []) "abcd").length : Nat) : Int) ∧
    (∃ e, WordCloudActivity.processResponse
      (WordCloudConfig.mk "P" 3 3 false false false true []) 1
      (Json.obj [("words", Json.arr [jstr "abcd"])]) "t" = .error e) :=
  ⟨by simp,
   by decide,
   claim_C6_wordcloud_rejections (WordCloudConfig.mk "P" 20 3 false false false true ["BAD"])
     1 "t" [jstr "bad."] "bad." (by simp) (Or.inl (by decide)),
   by decide,
   claim_C6_wordcloud_rejections (WordCloudConfig.mk "P" 3 3 false false false true [])
     1 "t" [jstr "abcd"] "abcd" (by simp) (Or.inr (by decide))⟩

/-! ## QnA unique-voter counting (C5) -/

theorem dedupFirstAux_append_mem {α : Type} [DecidableEq α] (l : List α) (seen : List α)
    (p : α) (h : p ∈ seen ∨ p ∈ l) :
    dedupFirstAux seen (l ++ [p]) = dedupFirstAux seen l := by
  induction l generalizing seen with
  | nil =>
    rcases h with h | h
    · simp [dedupFirstAux, h]
    · simp at h
  | cons a l ih =>
    simp only [List.cons_append, dedupFirstAux]
    by_cases ha : a ∈ seen
    · rw [if_pos ha, if_pos ha]
      refine ih seen ?_
      rcases h with h | h
      · exact Or.inl h
      · rcases List.mem_cons.mp h with rfl | h2
        · exact Or.inl ha
        · exact Or.inr h2
    · rw [if_neg ha, if_neg ha]
      congr 1
      refine ih (a :: seen) ?_
      rcases h with h | h
      · exact Or.inl (List.mem_cons_of_mem _ h)
      · rcases List.mem_cons.mp h with rfl | h2
        · exact Or.inl (List.mem_cons_self _ _)
        · exact Or.inr h2

theorem dedupFirst_append_mem {α : Type} [DecidableEq α] (l : List α) (p : α)
    (h : p ∈ l) : dedupFirst (l ++ [p]) = dedupFirst l :=
  dedupFirstAux_append_mem l [] p (Or.inr h)

theorem mem_of_mapM_ok {α β : Type} (f : α → PyM β) (l : List α) (bs : List β)
    (h : l.mapM f = .ok bs) (x : α) (hx : x ∈ l) (b : β) (hfx : f x = .ok b) :
    b ∈ bs := by
  induction l generalizing bs with
  | nil => simp at hx
  | cons a l ih =>
    rw [List.mapM_cons] at h
    cases hfa : f a with
    | error e =>
      rw [hfa, pym_bind_error] at h
      exact absurd h (by simp)
    | ok b0 =>
      rw [hfa, pym_bind_ok] at h
      cases hml : l.mapM f with
      | error e =>
        rw [hml, pym_bind_error] at h
        exact absurd h (by simp)
      | ok bs0 =>
        rw [hml, pym_bind_ok, pym_pure] at h
        obtain rfl : b0 :: bs0 = bs := Except.ok.inj h
        rcases List.mem_cons.mp hx with rfl | hx'
        · rw [hfa] at hfx
          obtain rfl := Except.ok.inj hfx
          exact List.mem_cons_self _ _
        · exact List.mem_cons_of_mem _ (ih bs0 hml hx')

theorem mapM_append_singleton_ok {α β : Type} (f : α → PyM β) (l : List α) (bs : List β)
    (x : α) (b : β) (h : l.mapM f = .ok bs) (hx : f x = .ok b) :
    (l ++ [x]).mapM f = .ok (bs ++ [b]) := by
  induction l generalizing bs with
  | nil =>
    have hb : bs = [] := by
      rw [show ([] : List α).mapM f = .ok [] from rfl] at h
      exact (Except.ok.inj h).symm
    subst hb
    simp only [List.nil_append, List.mapM_cons, hx, pym_bind_ok]
    rfl
  | cons a l ih =>
    rw [List.mapM_cons] at h
    cases hfa : f a with
    | error e =>
      rw [hfa, pym_bind_error] at h
      exact absurd h (by simp)
    | ok b0 =>
      rw [hfa, pym_bind_ok] at h
      cases hml : l.mapM f with
      | error e =>
        rw [hml, pym_bind_error] at h
        exact absurd h (by simp)
      | ok bs0 =>
        rw [hml, pym_bind_ok, pym_pure] at h
        obtain rfl : b0 :: bs0 = bs := Except.ok.inj h
        simp only [List.cons_append, List.mapM_cons, hfa, pym_bind_ok, ih bs0 hml,
          pym_pure]

theorem mapM_append_of_error {α β : Type} (f : α → PyM β) (l l' : List α) (e : String)
    (h : l.mapM f = .error e) : (l ++ l').mapM f = .error e := by
  induction l generalizing e with
  | nil =>
    rw [show ([] : List α).mapM f = .ok [] from rfl] at h
    exact absurd h (by simp)
  | cons a l ih =>
    rw [List.mapM_cons] at h
    cases hfa : f a with
    | error e0 =>
      rw [hfa, pym_bind_error] at h
      obtain rfl := Except.error.inj h
      simp only [List.cons_append, List.mapM_cons, hfa, pym_bind_error]
    | ok b0 =>
      rw [hfa, pym_bind_ok] at h
      cases hml : l.mapM f with
      | error e1 =>
        rw [hml, pym_bind_error] at h
        obtain rfl := Except.error.inj h
        simp only [List.cons_append, List.mapM_cons, hfa, pym_bind_ok, ih e1 hml,
          pym_bind_error]
      | ok bs0 =>
        rw [hml, pym_bind_ok, pym_pure] at h
        exact absurd h (by simp)

theorem updInsert_votes_sum (votes : List (Scalar × List QnaActivity.VoteEntry))
    (k : Scalar) (vl : List QnaActivity.VoteEntry) (e : QnaActivity.VoteEntry)
    (hk : votes.lookup k = some vl) :
    ((updInsert votes k (vl ++ [e])).map (fun kv => (kv.2.length : Int))).sum
      = (votes.map (fun kv => (kv.2.length : Int))).sum + 1 := by
  induction votes with
  | nil => simp at hk
  | cons kv rest ih =>
    obtain ⟨k0, vl0⟩ := kv
    by_cases hkk : k = k0
    · subst hkk
      rw [List.lookup_cons_self] at hk
      obtain rfl := Option.some.inj hk
      rw [show updInsert ((k, vl0) :: rest) k (vl0 ++ [e]) = (k, vl0 ++ [e]) :: rest from by
        simp [updInsert]]
      simp only [List.map_cons, List.sum_cons, List.length_append, List.length_singleton]
      push_cast
      ring
    · rw [lookup_cons_ne rest k0 k vl0 hkk] at hk
      rw [show updInsert ((k0, vl0) :: rest) k (vl ++ [e])
          = (k0, vl0) :: updInsert rest k (vl ++ [e]) from by simp [updInsert, hkk]]
      simp only [List.map_cons, List.sum_cons, ih hk]
      ring

theorem tallyEntry_dup (ent : QnaActivity.QEntry) (vl : List QnaActivity.VoteEntry)
    (e : QnaActivity.VoteEntry) (p : Int) (hpid : e.participantId = jint p)
    (hdup : jint p ∈ vl.map QnaActivity.VoteEntry.participantId) :
    QnaActivity.tallyEntry false ent (vl ++ [e]) = QnaActivity.tallyEntry false ent vl := by
  unfold QnaActivity.tallyEntry
  rw [if_neg (by simp), if_neg (by simp)]
  cases hkeys : vl.mapM (fun v => v.participantId.asKey) with
  | error e2 =>
    rw [mapM_append_of_error _ vl [e] e2 hkeys]
  | ok keys =>
    obtain ⟨v, hv, hvp⟩ := List.mem_map.mp hdup
    have hp' : Scalar.int p ∈ keys :=
      mem_of_mapM_ok _ vl keys hkeys v hv (Scalar.int p) (by
        show v.participantId.asKey = Except.ok (Scalar.int p)
        rw [hvp]
        rfl)
    have h2 := mapM_append_singleton_ok (fun v => v.participantId.asKey) vl keys e
      (Scalar.int p) hkeys (by
        show e.participantId.asKey = Except.ok (Scalar.int p)
        rw [hpid]
        rfl)
    rw [h2, pym_bind_ok, pym_bind_ok]
    rw [dedupFirst_append_mem keys (Scalar.int p) hp']

theorem applyVotes_extend_dup (questions : List (Scalar × QnaActivity.QEntry))
    (votes : List (Scalar × List QnaActivity.VoteEntry)) (k : Scalar)
    (vl : List QnaActivity.VoteEntry) (e : QnaActivity.VoteEntry) (p : Int)
    (hpid : e.participantId = jint p)
    (hk : votes.lookup k = some vl)
    (hdup : jint p ∈ vl.map QnaActivity.VoteEntry.participantId)
    (qres : List (Scalar × QnaActivity.QEntry))
    (hok : QnaActivity.applyVotes false questions votes = .ok qres) :
    QnaActivity.applyVotes false questions (updInsert votes k (vl ++ [e])) = .ok qres := by
  induction votes generalizing questions with
  | nil => simp at hk
  | cons kv rest ih =>
    obtain ⟨k0, vl0⟩ := kv
    by_cases hkk : k = k0
    · subst hkk
      rw [List.lookup_cons_self] at hk
      obtain rfl := Option.some.inj hk
      rw [show updInsert ((k, vl0) :: rest) k (vl0 ++ [e]) = (k, vl0 ++ [e]) :: rest from by
        simp [updInsert]]
      unfold QnaActivity.applyVotes at hok ⊢
      cases hqk : questions.lookup k with
      | none =>
        rw [hqk] at hok
        dsimp only at hok ⊢
        exact hok
      | some ent =>
        rw [hqk] at hok
        dsimp only at hok ⊢
        rw [tallyEntry_dup ent vl0 e p hpid hdup]
        exact hok
    · rw [lookup_cons_ne rest k0 k vl0 hkk] at hk
      rw [show updInsert ((k0, vl0) :: rest) k (vl ++ [e])
          = (k0, vl0) :: updInsert rest k (vl ++ [e]) from by simp [updInsert, hkk]]
      unfold QnaActivity.applyVotes at hok ⊢
      cases hqk : questions.lookup k0 with
      | none =>
        rw [hqk] at hok
        dsimp only at hok ⊢
        exact ih questions hk hok
      | some ent =>
        rw [hqk] at hok
        dsimp only at hok ⊢
        cases htl : QnaActivity.tallyEntry false ent vl0 with
        | error e2 =>
          rw [htl, pym_bind_error] at hok
          exact absurd hok (by simp)
        | ok ent' =>
          rw [htl, pym_bind_ok] at hok
          rw [pym_bind_ok]
          exact ih (updInsert questions k0 ent') hk hok

/-- A well-formed stored vote response for question `q` by participant `p`. -/
def qnaVoteJson (q : String) (p : Int) (ts : String) : Json :=
  Json.obj [("response_data", Json.obj
    [("type", jstr "vote"), ("question_id", jstr q),
     ("participant_id", jint p), ("timestamp", jstr ts)])]

theorem collectStep_vote (acc : QnaActivity.QnaAcc) (q : String) (p : Int) (ts : String)
    (hq : q ≠ "") (hp : p ≠ 0) :
    QnaActivity.collectStep acc (qnaVoteJson q p ts)
      = .ok ⟨acc.questions, QnaActivity.addVote acc.votes (Scalar.str q) ⟨jint p, jstr ts⟩⟩ := by
  unfold QnaActivity.collectStep qnaVoteJson
  simp [Json.get, Json.eqStr, jstr, jint, Json.truthy, Json.asKey, hq, hp,
    pym_bind_ok, pym_pure, List.lookup, Option.getD]

theorem collect_append_vote (rs : List Json) (acc : QnaActivity.QnaAcc)
    (q : String) (p : Int) (ts : String) (hq : q ≠ "") (hp : p ≠ 0)
    (hacc : QnaActivity.collect rs = .ok acc) :
    QnaActivity.collect (rs ++ [qnaVoteJson q p ts])
      = .ok ⟨acc.questions, QnaActivity.addVote acc.votes (Scalar.str q) ⟨jint p, jstr ts⟩⟩ := by
  unfold QnaActivity.collect at hacc ⊢
  rw [List.foldlM_append, hacc, pym_bind_ok, List.foldlM_cons,
    collectStep_vote acc q p ts hq hp, pym_bind_ok, List.foldlM_nil]
  rfl

/-- C5: with `allow_multiple_votes=false` the QnA aggregation counts only
unique voters per question. Appending one more vote by a participant who
already voted on the same question leaves every question's vote tally — and
with it the whole question view of the results document (approved list,
pending list, most popular question, question count) — unchanged; only the
raw `total_votes` counter records the duplicate vote. -/
theorem claim_C5_unique_voters (cfg : QnaConfig) (rs : List Json) (q : String) (p : Int)
    (ts : String) (acc : QnaActivity.QnaAcc) (vl : List QnaActivity.VoteEntry)
    (r : QnaActivity.QnaResults)
    (hm : cfg.allowMultipleVotes = false) (hq : q ≠ "") (hp : p ≠ 0)
    (hacc : QnaActivity.collect rs = .ok acc)
    (hvl : acc.votes.lookup (Scalar.str q) = some vl)
    (hvoted : jint p ∈ vl.map QnaActivity.VoteEntry.participantId)
    (hres : QnaActivity.calculateResults cfg rs = .ok (.results r)) :
    ∃ r', QnaActivity.calculateResults cfg (rs ++ [qnaVoteJson q p ts])
        = .ok (.results r') ∧
      r'.approvedQuestions = r.approvedQuestions ∧
      r'.pendingQuestions = r.pendingQuestions ∧
      r'.mostPopularQuestion = r.mostPopularQuestion ∧
      r'.totalQuestions = r.totalQuestions ∧
      r'.totalVotes = r.totalVotes + 1 := by
  unfold QnaActivity.calculateResults at hres
  cases hbody : QnaActivity.calculateResultsBody cfg rs with
  | error e =>
    rw [hbody] at hres
    dsimp only at hres
    exact absurd hres (by simp)
  | ok rb =>
    rw [hbody] at hres
    dsimp only at hres
    injection hres with h1
    injection h1 with h1
    subst h1
    unfold QnaActivity.calculateResultsBody at hbody
    rw [hacc, pym_bind_ok, hm] at hbody
    cases happ : QnaActivity.applyVotes false acc.questions acc.votes with
    | error e2 =>
      rw [happ, pym_bind_error] at hbody
      exact absurd hbody (by simp)
    | ok qres =>
      rw [happ, pym_bind_ok] at hbody
      dsimp only at hbody
      rw [pym_pure] at hbody
      have hr := Except.ok.inj hbody
      have hcol2 := collect_append_vote rs acc q p ts hq hp hacc
      have haddv : QnaActivity.addVote acc.votes (Scalar.str q) ⟨jint p, jstr ts⟩
          = updInsert acc.votes (Scalar.str q) (vl ++ [⟨jint p, jstr ts⟩]) := by
        unfold QnaActivity.addVote
        rw [hvl]
      have happ2 := applyVotes_extend_dup acc.questions acc.votes (Scalar.str q) vl
        ⟨jint p, jstr ts⟩ p rfl hvl hvoted qres happ
      have hmain : QnaActivity.calculateResults cfg (rs ++ [qnaVoteJson q p ts])
          = .ok (.results
            { topic := cfg.topic,
              totalQuestions := qres.length,
              totalVotes := ((updInsert acc.votes (Scalar.str q)
                  (vl ++ [⟨jint p, jstr ts⟩])).map (fun kv => (kv.2.length : Int))).sum,
              approvedQuestions := (QnaActivity.sortByVotesDesc (qres.map Prod.snd)).filter
                (fun q2 => q2.status.eqStr "approved"),
              pendingQuestions := if ¬ cfg.moderateQuestions then
                  (QnaActivity.sortByVotesDesc (qres.map Prod.snd)).filter
                    (fun q2 => q2.status.eqStr "pending")
                else [],
              mostPopularQuestion := ((QnaActivity.sortByVotesDesc (qres.map Prod.snd)).filter
                (fun q2 => q2.status.eqStr "approved")).head?,
              enableVoting := cfg.enableVoting,
              showVoteCounts := cfg.showVoteCounts,
              allowAnonymous := cfg.allowAnonymous }) := by
        unfold QnaActivity.calculateResults QnaActivity.calculateResultsBody
        rw [hcol2, pym_bind_ok]
        dsimp only
        rw [hm, haddv, happ2, pym_bind_ok]
        rfl
      refine ⟨_, hmain, ?_, ?_, ?_, ?_, ?_⟩
      · rw [← hr]
      · rw [← hr]
      · rw [← hr]
      · rw [← hr]
      · rw [← hr]
        exact updInsert_votes_sum acc.votes (Scalar.str q) vl ⟨jint p, jstr ts⟩ hvl

/-- Concrete QnA configuration for the C5 witness (no moderation, single
vote per participant). -/
def qnaWitnessConfig : QnaConfig :=
  QnaConfig.mk "T" true true false 500 false true

/-- A stored, approved question response with id `"q1"`. -/
def qnaWitnessQuestion : Json :=
  Json.obj [("response_data", Json.obj
    [("type", jstr "question"), ("question_id", jstr "q1"),
     ("question_text", jstr "why"), ("participant_id", jint 9),
     ("status", jstr "approved"), ("timestamp", jstr "tq")])]

/-- Witness history: the question and one vote on it by participant 1. -/
def qnaWitnessResponses : List Json :=
  [qnaWitnessQuestion, qnaVoteJson "q1" 1 "tv"]

/-- The question entry as first collected (no votes applied yet). -/
def qnaWitnessEntry0 : QnaActivity.QEntry :=
  QnaActivity.QEntry.mk (jstr "q1") (jstr "why") (jbool true) (jint 9) (jstr "tq")
    (jstr "approved") 0 []

/-- The question entry after the unique-voter tally. -/
def qnaWitnessEntry1 : QnaActivity.QEntry :=
  QnaActivity.QEntry.mk (jstr "q1") (jstr "why") (jbool true) (jint 9) (jstr "tq")
    (jstr "approved") 1 [Json.scalar (Scalar.int 1)]

/-- The collected state of `qnaWitnessResponses`. -/
def qnaWitnessAcc : QnaActivity.QnaAcc :=
  QnaActivity.QnaAcc.mk [(Scalar.str "q1", qnaWitnessEntry0)]
    [(Scalar.str "q1", [QnaActivity.VoteEntry.mk (jint 1) (jstr "tv")])]

/-- The results document of `qnaWitnessResponses`. -/
def qnaWitnessResults : QnaActivity.QnaResults :=
  QnaActivity.QnaResults.mk "T" 1 1 [qnaWitnessEntry1] [] (some qnaWitnessEntry1)
    true true true

/-- Concrete instantiation of `claim_C5_unique_voters`: participant 1 voting
a second time on question `"q1"` leaves its vote count at 1 while
`total_votes` becomes 2. -/
theorem claim_C5_unique_voters_witness :
    qnaWitnessConfig.allowMultipleVotes = false ∧
    QnaActivity.collect qnaWitnessResponses = .ok qnaWitnessAcc ∧
    QnaActivity.calculateResults qnaWitnessConfig qnaWitnessResponses
      = .ok (.results qnaWitnessResults) ∧
    (∃ r', QnaActivity.calculateResults qnaWitnessConfig
        (qnaWitnessResponses ++ [qnaVoteJson "q1" 1 "tv2"]) = .ok (.results r') ∧
      r'.approvedQuestions = qnaWitnessResults.approvedQuestions ∧
      r'.pendingQuestions = qnaWitnessResults.pendingQuestions ∧
      r'.mostPopularQuestion = qnaWitnessResults.mostPopularQuestion ∧
      r'.totalQuestions = qnaWitnessResults.totalQuestions ∧
      r'.totalVotes = qnaWitnessResults.totalVotes + 1) :=
  ⟨rfl, rfl, rfl,
   claim_C5_unique_voters qnaWitnessConfig qnaWitnessResponses "q1" 1 "tv2"
     qnaWitnessAcc [QnaActivity.VoteEntry.mk (jint 1) (jstr "tv")] qnaWitnessResults
     rfl (by decide) (by decide) rfl rfl (List.mem_singleton.mpr rfl) rfl⟩

end Conflicto
